import Mathlib

set_option maxRecDepth 8000

/-- Comma/space joining of a string list, as Python's `str.join`
(structurally recursive so that it evaluates inside the kernel). -/
def joinWith (sep : String) : List String → String
  | [] => ""
  | [x] => x
  | x :: rest => x ++ sep ++ joinWith sep rest

/-- `String.startsWith`, stated on the character lists so that it evaluates
inside the kernel. -/
def strStartsWith (s pre : String) : Bool :=
  pre.data.isPrefixOf s.data


/- A verification model of the Calamares mount module
   (src/usr/lib/calamares/modules/mount/main.py).  Python dictionaries are
   modelled as structures; the external world (sysfs reads, the mount
   executor, subprocess invocations, temporary-directory names and global
   storage) is modelled by explicit oracles in an environment record and by
   an explicit mutable-state record threaded through every function. -/

/-- A partition descriptor, as read from global storage (`partitions`) or from
the `extraMounts` job configuration.  A missing `mountPoint` key and an empty
mount point behave identically everywhere in the source (both are falsy and
both are ignored by the planner's `m and ...` guard), so both are modelled as
`""`.  The optional keys `options` and `luksMapperName` are modelled with
`Option`; a missing or falsy `efi` key is modelled as `false`. -/
structure Partition where
  device : String := ""
  mountPoint : String := ""
  fs : String := ""
  fsName : String := ""
  claimed : Bool := false
  options : Option (List String) := none
  luksMapperName : Option String := none
  efi : Bool := false
deriving DecidableEq

/-- One entry of the `mountOptions` rule table from the job configuration.
A missing `options`/`ssdOptions`/`nvmeOptions`/`hddOptions` key is read with
`.get(key, [])` in the source, so it is modelled as the default `[]`. -/
structure MountRule where
  filesystem : String
  options : List String := []
  ssdOptions : List String := []
  nvmeOptions : List String := []
  hddOptions : List String := []
deriving DecidableEq

/-- A Btrfs subvolume specification: `{mountPoint, subvolume}`. -/
structure Subvol where
  mountPoint : String
  subvolume : String
deriving DecidableEq

/-- One entry of the `mount_options_list` accumulated for global storage. -/
structure MountEntry where
  mountpoint : String
  option_string : String
deriving DecidableEq

/-- One entry of the `zfsPoolInfo` global-storage list. -/
structure ZPool where
  mountpoint : String
  poolName : String
  dsName : String
deriving DecidableEq

/-- One entry of the `zfsInfo` global-storage list. -/
structure ZInfo where
  mountpoint : String
  encrypted : Bool
  passphrase : String := ""
deriving DecidableEq

/-- The `canMount` field of a zfs dataset: the source tests
`dataset["canMount"] == "noauto" or dataset["canMount"] is True`. -/
inductive CanMount
  | noauto
  | bTrue
  | no
deriving DecidableEq

/-- One entry of the `zfsDatasets` global-storage list. -/
structure ZDataset where
  mountpoint : String
  zpool : String
  dsName : String
  canMount : CanMount
deriving DecidableEq

/-- A value inserted into global storage by this module. -/
inductive GSVal
  | str (s : String)
  | subvols (l : List Subvol)
  | entries (l : List MountEntry)
  | parts (l : List Partition)
deriving DecidableEq

/-- An external command observed in the log: calls of the mount executor
`libcalamares.utils.mount`, of `umount -v` and `umount -v -l`, and of other
subprocesses (`swapon`, `zpool`, `zfs`, `btrfs subvolume create`), together
with their success flag. -/
inductive Cmd
  | mount (device target fstype opts : String) (ok : Bool)
  | umount (target : String) (ok : Bool)
  | umountLazy (target : String)
  | cmd (args : List String) (ok : Bool)
deriving DecidableEq

/-- The messages of the exceptions raised through `err` in the source,
kept structured; `render` gives the exact source text. -/
inductive Msg
  | unsupported (fstype mountPoint : String)
  | cannotMount (device : String)
  | cannotMountScratch (device : String)
  | rootSubvolMissing
  | rootSubvolUndefined
  | subvolUndefined
  | rootSubvolMountFailed (device : String)
  | subvolMountFailed (subvolume : String)
  | rewrapped (s : String)
deriving DecidableEq

/-- The exact message strings of the source's f-strings. -/
def Msg.render : Msg → String
  | .unsupported f mp => "Unsupported partition with " ++ f ++ " on " ++ mp
  | .cannotMount d => "Cannot mount " ++ d
  | .cannotMountScratch d => "Cannot mount btrfs for subvolume creation " ++ d
  | .rootSubvolMissing => "Btrfs root subvolume (/) not found!"
  | .rootSubvolUndefined => "root subvolume not defined"
  | .subvolUndefined => "subvolume not defined"
  | .rootSubvolMountFailed d => "Failed to mount root subvolume " ++ d
  | .subvolMountFailed s => "Failed to mount subvolume " ++ s
  | .rewrapped s => s

/-- The Python exceptions that can escape a protocol step: `Exception(msg)`
raised by `err`, `ZfsException`, `subprocess.CalledProcessError` from
`check_call`, `KeyError` from a missing dictionary key, and `NameError` from
reading a never-assigned local variable. -/
inductive PErr
  | exc (m : Msg)
  | zfs (message : String)
  | calledProcess (args : List String)
  | keyError (key : String)
  | nameError (name : String)
deriving DecidableEq

/-- `str(e)` for a caught exception `e`, as used by `run`'s
`except Exception as e: err(str(e), active_mounts)`.  Although
`ZfsException.__init__` never calls `Exception.__init__`, CPython's
`BaseException.__new__` already stores the constructor arguments in `args`,
so `str` of a `ZfsException` is its message.  The
`CalledProcessError`/`KeyError`/`NameError` renderings follow CPython's
conventions (the exact text is irrelevant to the claims). -/
def strOfErr : PErr → String
  | .exc m => m.render
  | .zfs message => message
  | .calledProcess args => "Command " ++ joinWith " " args ++ " returned non-zero exit status 1."
  | .keyError k => "'" ++ k ++ "'"
  | .nameError n => "name '" ++ n ++ "' is not defined"

/-- The mutable state threaded through a run: the set of paths currently
mounted on the system (normalised, see `normPath`), the `active_mounts`
ledger, the `mount_options_list`, the sequence of `globalstorage.insert`
calls, the log of external commands, and a counter for fresh
temporary-directory names. -/
structure World where
  mounted : List String := []
  ledger : List String := []
  optsList : List MountEntry := []
  gsWrites : List (String × GSVal) := []
  log : List Cmd := []
  tmp : Nat := 0
deriving DecidableEq

/-- The result of `run`: success, the configuration-error tuple returned when
no partitions are defined, or an uncaught exception. -/
inductive RunOutcome
  | ok
  | configError
  | failed (e : PErr)
deriving DecidableEq

/-- The read-only inputs of a run: job configuration, global-storage reads,
and oracles for every external effect (sysfs rotational queries, the mount
executor, `umount`, other subprocesses, `os.path.exists`, and the names
handed out by `tempfile`). -/
structure Env where
  partitions : List Partition := []
  firmwareType : String := ""
  efiSystemPartition : Option String := none
  mountOptions : Option (List MountRule) := none
  extraMounts : Option (List Partition) := none
  cfgBtrfsSubvolumes : Option (List Subvol) := none
  cfgBtrfsSwapSubvol : Option String := none
  swapIsFile : Bool := false
  zfsPoolInfo : Option (List ZPool) := none
  zfsInfo : Option (List ZInfo) := none
  zfsDatasets : Option (List ZDataset) := none
  rotational : String → Option String := fun _ => none
  mountOK : String → String → String → String → Bool := fun _ _ _ _ => true
  umountOK : String → Bool := fun _ => true
  umountLazyOK : String → Bool := fun _ => true
  cmdOK : List String → Bool := fun _ => true
  pathExists : String → Bool := fun _ => false
  rootDirName : String := "/rt"
  setupDirName : Nat → String := fun _ => "/tmpdir"

/-- `os.path.basename`: the part after the last slash. -/
def basename (p : String) : String :=
  String.mk ((p.data.reverse.takeWhile (fun c => !(c == '/'))).reverse)

/-- Python's `str.lower` (the filesystem names involved are ASCII). -/
def lowerStr (s : String) : String :=
  String.mk (s.data.map Char.toLower)

/-- `re.sub("[0-9]+$", "", name)`: strip a maximal trailing digit run. -/
def stripTrailingDigits (name : String) : String :=
  String.mk ((name.data.reverse.dropWhile Char.isDigit).reverse)

/-- `re.sub("p[0-9]+$", "", name)`: strip a trailing `p` followed by at
least one digit; anything else is left unchanged. -/
def stripPNumSuffix (name : String) : String :=
  let revd := name.data.reverse
  match revd.takeWhile Char.isDigit, revd.dropWhile Char.isDigit with
  | _ :: _, 'p' :: rest => String.mk rest.reverse
  | _, _ => name

/-- Path normalisation for mount-point identity: `os.path.ismount` treats
`path` and `path/` alike, so the mounted-set stores paths with trailing
slashes stripped. -/
def normPath (p : String) : String :=
  let q := String.mk ((p.data.reverse.dropWhile (fun c => c == '/')).reverse)
  if q == "" then "/" else q

/-- Python truthiness of the `efi_location` value (`None` and `""` are
falsy). -/
def efiTruthy : Option String → Bool
  | none => false
  | some s => !(s == "")

/-- Lexicographic comparison of character lists by code point, as Python
compares strings (structurally recursive so that it evaluates inside the
kernel). -/
def charListLt : List Char → List Char → Bool
  | [], [] => false
  | [], _ :: _ => true
  | _ :: _, [] => false
  | a :: as, b :: bs =>
    if a.toNat < b.toNat then true
    else if b.toNat < a.toNat then false
    else charListLt as bs

/-- Python's `<` on strings. -/
def strLt (a b : String) : Bool :=
  charListLt a.data b.data

/-- Stable insertion into a descending list: equal elements keep their
original relative order, as in Python's `sorted(_, reverse=True)`. -/
def insertDesc (a : String) : List String → List String
  | [] => [a]
  | b :: rest => if strLt b a then a :: b :: rest else b :: insertDesc a rest

/-- `sorted(l, reverse=True)` on strings. -/
def sortDesc (l : List String) : List String :=
  l.foldl (fun acc a => insertDesc a acc) []

/-- Stable insertion into an ascending list keyed by a string. -/
def insertAscBy {α : Type} (key : α → String) (a : α) : List α → List α
  | [] => [a]
  | b :: rest => if strLt (key a) (key b) then a :: b :: rest else b :: insertAscBy key a rest

/-- Python's stable ascending `sort(key=...)` on a string key. -/
def sortAscBy {α : Type} (key : α → String) (l : List α) : List α :=
  l.foldl (fun acc a => insertAscBy key a acc) []

/-- `disk_name_for_partition` (main.py lines 46-57). -/
def disk_name_for_partition (partition : Partition) : String :=
  let name := basename partition.device
  if strStartsWith name "mmcblk" || strStartsWith name "nvme" then stripPNumSuffix name
  else stripTrailingDigits name

/-- `is_ssd_disk` (main.py lines 60-74): reads
`/sys/block/<disk>/queue/rotational`; any failure of the read (oracle
`none`) yields `False`. -/
def is_ssd_disk (env : Env) (partition : Partition) : Bool :=
  match env.rotational (disk_name_for_partition partition) with
  | some contents => contents == "0\n"
  | none => false

/-- `get_mount_options` (main.py lines 77-127). -/
def get_mount_options (env : Env) (filesystem : String)
    (mount_options : Option (List MountRule)) (partition : Partition)
    (efi_location : Option String) : String :=
  match partition.options with
  | some opts => joinWith "," opts
  | none =>
    match mount_options with
    | none => "defaults"
    | some rules =>
      let effective_filesystem :=
        if efiTruthy efi_location && partition.mountPoint == efi_location.getD "" then "efi"
        else filesystem
      let options0 := rules.find? (fun x => x.filesystem == effective_filesystem)
      let options1 :=
        match options0 with
        | some o => some o
        | none => rules.find? (fun x => x.filesystem == "default")
      match options1 with
      | none => "defaults"
      | some options =>
        let option_items := options.options ++
          (if is_ssd_disk env partition then
            (if strStartsWith (basename partition.device) "nvme" then options.nvmeOptions
             else options.ssdOptions)
           else options.hddOptions)
        if option_items.isEmpty then "defaults" else joinWith "," option_items

/-- The hard-coded default subvolume layout (main.py line 147). -/
def defaultSubvolLayout : List Subvol :=
  [⟨"/", "/@"⟩, ⟨"/home", "/@home"⟩]

/-- The effective configured subvolume layout: a missing or empty
`btrfsSubvolumes` configuration is replaced by the default layout
(main.py lines 141-147). -/
def effectiveLayout (env : Env) : List Subvol :=
  match env.cfgBtrfsSubvolumes with
  | none => defaultSubvolLayout
  | some l => if l.isEmpty then defaultSubvolLayout else l

/-- `get_btrfs_subvolumes` (main.py lines 130-169).  Returns the planned
subvolume list and the state after the (possible) `btrfsSwapSubvol`
global-storage insert. -/
def get_btrfs_subvolumes (env : Env) (partitions : List Partition) (st : World) :
    List Subvol × World :=
  let btrfs_subvolumes := effectiveLayout env
  let non_root_partition_mounts :=
    (partitions.map (fun p => p.mountPoint)).filter (fun m => !(m == "/"))
  let filtered := btrfs_subvolumes.filter (fun s =>
    s.mountPoint == "/" ||
    !(non_root_partition_mounts.any (fun m =>
        !(m == "") && (s.mountPoint == m || strStartsWith s.mountPoint (m ++ "/")))))
  if env.swapIsFile then
    let swap_subvol := env.cfgBtrfsSwapSubvol.getD "/@swap"
    (filtered ++ [⟨"/swap", swap_subvol⟩],
     { st with gsWrites := st.gsWrites ++ [("btrfsSwapSubvol", GSVal.str swap_subvol)] })
  else (filtered, st)

/-- The rollback loop of `err` (main.py lines 235-240): walk the ledger in
reverse-lexicographic order; for each target that is currently a mount
point, try `umount -v`, and on failure `umount -v -l`.  The ledger itself is
not modified. -/
def errLoop (env : Env) : List String → World → World
  | [], st => st
  | d :: rest, st =>
    if normPath d ∈ st.mounted then
      if env.umountOK (normPath d) then
        errLoop env rest
          { st with mounted := st.mounted.erase (normPath d),
                    log := st.log ++ [Cmd.umount d true] }
      else
        if env.umountLazyOK (normPath d) then
          errLoop env rest
            { st with mounted := st.mounted.erase (normPath d),
                      log := st.log ++ [Cmd.umount d false, Cmd.umountLazy d] }
        else
          errLoop env rest { st with log := st.log ++ [Cmd.umount d false, Cmd.umountLazy d] }
    else errLoop env rest st

/-- `err` (main.py lines 235-240): rollback over `sorted(active_mounts,
reverse=True)`, then raise `Exception(error_message)`. -/
def err (env : Env) (m : Msg) (st : World) : World × PErr :=
  (errLoop env (sortDesc st.ledger) st, PErr.exc m)

/-- Whether a zfs dataset is mounted by the root-pool loop
(main.py line 224). -/
def zfsMountable : CanMount → Bool
  | .noauto => true
  | .bTrue => true
  | .no => false

/-- The dataset loop of `mount_zfs` for the root pool (main.py
lines 222-228); a successful `zfs mount` of a dataset makes
`root + mountpoint` a mount point (the pool was imported with `-R root`). -/
def zfsDatasetLoop (env : Env) (root_mount_point : String) :
    List ZDataset → World → World × Option PErr
  | [], st => (st, none)
  | d :: rest, st =>
    if zfsMountable d.canMount then
      let args := ["zfs", "mount", d.zpool ++ "/" ++ d.dsName]
      if env.cmdOK args then
        zfsDatasetLoop env root_mount_point rest
          { st with mounted := normPath (root_mount_point ++ d.mountpoint) :: st.mounted,
                    log := st.log ++ [Cmd.cmd args true] }
      else
        ({ st with log := st.log ++ [Cmd.cmd args false] },
         some (PErr.zfs "Failed to set zfs mountpoint"))
    else zfsDatasetLoop env root_mount_point rest st

/-- `mount_zfs` (main.py lines 172-233).  The source's pool-matching loop
assigns `pool_name`/`ds_name` from the last matching entry; when the pool
list is non-empty but nothing matches, `pool_name` is never assigned and
the later use raises a `NameError`. -/
def mount_zfs (env : Env) (root_mount_point : String) (partition : Partition)
    (st : World) : World × Option PErr :=
  match env.zfsPoolInfo with
  | none => (st, some (PErr.zfs "Internal error mounting zfs datasets"))
  | some zfs_pool_list =>
    if zfs_pool_list.isEmpty then
      (st, some (PErr.zfs "Internal error mounting zfs datasets"))
    else
      match (zfs_pool_list.filter (fun zp => zp.mountpoint == partition.mountPoint)).getLast? with
      | none => (st, some (PErr.nameError "pool_name"))
      | some zp =>
        let importArgs := ["zpool", "import", "-N", "-R", root_mount_point, zp.poolName]
        if env.cmdOK importArgs then
          let st := { st with log := st.log ++ [Cmd.cmd importArgs true] }
          let encrypt := ((env.zfsInfo.getD []).filter
            (fun zi => zi.mountpoint == partition.mountPoint && zi.encrypted)).getLast?.isSome
          let unlockArgs := ["zfs", "load-key", zp.poolName]
          if encrypt && !(env.cmdOK unlockArgs) then
            ({ st with log := st.log ++ [Cmd.cmd unlockArgs false] },
             some (PErr.zfs "Failed to unlock zpool"))
          else
            let st := if encrypt then { st with log := st.log ++ [Cmd.cmd unlockArgs true] } else st
            if partition.mountPoint == "/" then
              match env.zfsDatasets with
              | none => (st, some (PErr.zfs "Internal error mounting zfs datasets"))
              | some zfs =>
                if zfs.isEmpty then (st, some (PErr.zfs "Internal error mounting zfs datasets"))
                else zfsDatasetLoop env root_mount_point (sortAscBy (fun d => d.mountpoint) zfs) st
            else
              let mountArgs := ["zfs", "mount", zp.poolName ++ "/" ++ zp.dsName]
              if env.cmdOK mountArgs then
                ({ st with mounted := normPath (root_mount_point ++ partition.mountPoint) :: st.mounted,
                           log := st.log ++ [Cmd.cmd mountArgs true] }, none)
              else
                ({ st with log := st.log ++ [Cmd.cmd mountArgs false] },
                 some (PErr.zfs "Failed to set zfs mountpoint"))
        else
          ({ st with log := st.log ++ [Cmd.cmd importArgs false] },
           some (PErr.zfs "Failed to import zpool"))

/-- The subvolume-creation loop of the Btrfs two-phase protocol (main.py
lines 313-321).  `created` tracks paths created earlier in this same loop
(`os.path.exists` would see them); a failing `btrfs subvolume create`
raises `CalledProcessError`. -/
def createSubvolLoop (env : Env) (setup_dir : String) :
    List Subvol → List String → World → World × Option PErr
  | [], _, st => (st, none)
  | s :: rest, created, st =>
    if s.subvolume == "" then createSubvolLoop env setup_dir rest created st
    else
      let sub_path := setup_dir ++ s.subvolume
      if (env.pathExists sub_path || created.contains sub_path : Bool) then
        createSubvolLoop env setup_dir rest created st
      else
        let args := ["btrfs", "subvolume", "create", sub_path]
        if env.cmdOK args then
          createSubvolLoop env setup_dir rest (sub_path :: created)
            { st with log := st.log ++ [Cmd.cmd args true] }
        else
          ({ st with log := st.log ++ [Cmd.cmd args false] }, some (PErr.calledProcess args))

/-- The `finally` block of the two-phase protocol (main.py lines 322-326):
unmount the scratch directory if it is a mount point (`check_call`, so a
failed unmount raises and skips the ledger removal), then remove it from the
ledger. -/
def scratchCleanup (env : Env) (setup_dir : String) (st : World) : World × Option PErr :=
  if normPath setup_dir ∈ st.mounted then
    if env.umountOK (normPath setup_dir) then
      let st := { st with mounted := st.mounted.erase (normPath setup_dir),
                          log := st.log ++ [Cmd.umount setup_dir true] }
      (if setup_dir ∈ st.ledger then { st with ledger := st.ledger.erase setup_dir } else st, none)
    else
      ({ st with log := st.log ++ [Cmd.umount setup_dir false] },
       some (PErr.calledProcess ["umount", "-v", setup_dir]))
  else
    (if setup_dir ∈ st.ledger then { st with ledger := st.ledger.erase setup_dir } else st, none)

/-- Step 3 of the two-phase protocol (main.py lines 343-361): mount every
non-root subvolume; the root entry only records `btrfsRootSubvolume` in
global storage.  On success the options ledger gains an entry carrying the
base option string; on failure `err` aborts. -/
def subvolMountLoop (env : Env) (root_mount_point device fstype mount_options_string : String) :
    List Subvol → World → World × Option PErr
  | [], st => (st, none)
  | s :: rest, st =>
    if s.mountPoint == "/" then
      subvolMountLoop env root_mount_point device fstype mount_options_string rest
        { st with gsWrites := st.gsWrites ++ [("btrfsRootSubvolume", GSVal.str s.subvolume)] }
    else
      if s.subvolume == "" then
        let r := err env Msg.subvolUndefined st
        (r.1, some r.2)
      else
        let sub_opts := "subvol=" ++ s.subvolume ++ "," ++ mount_options_string
        let sub_path := root_mount_point ++ s.mountPoint
        if env.mountOK device sub_path fstype sub_opts then
          subvolMountLoop env root_mount_point device fstype mount_options_string rest
            { st with mounted := normPath sub_path :: st.mounted,
                      log := st.log ++ [Cmd.mount device sub_path fstype sub_opts true],
                      optsList := st.optsList ++ [⟨s.mountPoint, mount_options_string⟩] }
        else
          let st := { st with log := st.log ++ [Cmd.mount device sub_path fstype sub_opts false] }
          let r := err env (Msg.subvolMountFailed s.subvolume) st
          (r.1, some r.2)

/-- Steps 5-6 of the Btrfs two-phase protocol (main.py lines 328-361):
locate the root subvolume entry, mount it over the install root, then mount
the remaining subvolumes. -/
def btrfsRootPhase2 (env : Env) (root_mount_point device fstype mount_options_string : String)
    (btrfs_subvolumes : List Subvol) (st : World) : World × Option PErr :=
  match btrfs_subvolumes.find? (fun s => s.mountPoint == "/") with
  | none =>
    let r := err env Msg.rootSubvolMissing st
    (r.1, some r.2)
  | some root_sub =>
    if root_sub.subvolume == "" then
      let r := err env Msg.rootSubvolUndefined st
      (r.1, some r.2)
    else
      let root_opts := "subvol=" ++ root_sub.subvolume ++ "," ++ mount_options_string
      if env.mountOK device root_mount_point fstype root_opts then
        let st := { st with mounted := normPath root_mount_point :: st.mounted,
                            log := st.log ++ [Cmd.mount device root_mount_point fstype root_opts true] }
        subvolMountLoop env root_mount_point device fstype mount_options_string btrfs_subvolumes st
      else
        let st := { st with log := st.log ++ [Cmd.mount device root_mount_point fstype root_opts false] }
        let r := err env (Msg.rootSubvolMountFailed device) st
        (r.1, some r.2)

/-- Steps 2-4 of the Btrfs two-phase protocol (main.py lines 307-326): push
a fresh scratch directory onto the ledger, mount the raw device there,
create the missing subvolumes, and run the scoped cleanup; the error of the
`finally` block supersedes the error of the creation loop, as in Python. -/
def btrfsScratchPhase (env : Env) (device fstype : String) (btrfs_subvolumes : List Subvol)
    (st : World) : World × Option PErr :=
  let setup_dir := env.setupDirName st.tmp
  let st := { st with tmp := st.tmp + 1, ledger := st.ledger ++ [setup_dir] }
  if env.mountOK device setup_dir fstype "defaults" then
    let st := { st with mounted := normPath setup_dir :: st.mounted,
                        log := st.log ++ [Cmd.mount device setup_dir fstype "defaults" true] }
    let cr := createSubvolLoop env setup_dir btrfs_subvolumes [] st
    let fr := scratchCleanup env setup_dir cr.1
    (fr.1, match fr.2 with | some e => some e | none => cr.2)
  else
    let st := { st with log := st.log ++ [Cmd.mount device setup_dir fstype "defaults" false] }
    let r := err env (Msg.cannotMountScratch device) st
    (r.1, some r.2)

/-- Sequencing after the scratch phase: a scratch-phase exception
propagates, otherwise steps 5-6 run on the resulting state. -/
def btrfsAfterScratch (env : Env) (root_mount_point device fstype mount_options_string : String)
    (btrfs_subvolumes : List Subvol) : World × Option PErr → World × Option PErr
  | (st, some e) => (st, some e)
  | (st, none) =>
    btrfsRootPhase2 env root_mount_point device fstype mount_options_string btrfs_subvolumes st

/-- The Btrfs-root branch of `mount_partition` (main.py lines 303-361):
plan and publish the subvolume list, run the scratch phase, then delegate
to `btrfsRootPhase2`. -/
def btrfsRootMount (env : Env) (root_mount_point : String) (_partition : Partition)
    (partitions : List Partition) (device fstype mount_options_string : String)
    (st : World) : World × Option PErr :=
  let pr := get_btrfs_subvolumes env partitions st
  let btrfs_subvolumes := pr.1
  let st := { pr.2 with gsWrites := pr.2.gsWrites ++ [("btrfsSubvolumes", GSVal.subvols btrfs_subvolumes)] }
  btrfsAfterScratch env root_mount_point device fstype mount_options_string btrfs_subvolumes
    (btrfsScratchPhase env device fstype btrfs_subvolumes st)

/-- The tail of `mount_partition` after the filesystem gate (main.py
lines 286-361): encrypted-device rewriting, zfs delegation, option
resolution, and the direct-mount or Btrfs-root branch. -/
def mount_partition_tail (env : Env) (root_mount_point : String) (partition : Partition)
    (partitions : List Partition) (mount_options : Option (List MountRule))
    (efi_location : Option String) (fstype raw_mount_point mount_point : String)
    (st : World) : World × Option PErr :=
  let device :=
    match partition.luksMapperName with
    | some n => "/dev/mapper/" ++ n
    | none => partition.device
  if fstype == "zfs" then mount_zfs env root_mount_point partition st
  else
    let mount_options_string := get_mount_options env fstype mount_options partition efi_location
    let st := { st with optsList := st.optsList ++ [⟨raw_mount_point, mount_options_string⟩] }
    if !(fstype == "btrfs" && raw_mount_point == "/") then
      if env.mountOK device mount_point fstype mount_options_string then
        ({ st with mounted := normPath mount_point :: st.mounted,
                   log := st.log ++ [Cmd.mount device mount_point fstype mount_options_string true] },
         none)
      else
        let st := { st with log := st.log ++ [Cmd.mount device mount_point fstype mount_options_string false] }
        let r := err env (Msg.cannotMount device) st
        (r.1, some r.2)
    else
      btrfsRootMount env root_mount_point partition partitions device fstype mount_options_string st

/-- `mount_partition` (main.py lines 242-361).  The target path is appended
to the `active_mounts` ledger immediately after the empty-mount-point test,
before any validation or mount attempt; directory creation and the
best-effort `chcon` call have no modelled effect. -/
def mount_partition (env : Env) (root_mount_point : String) (partition : Partition)
    (partitions : List Partition) (mount_options : Option (List MountRule))
    (efi_location : Option String) (st : World) : World × Option PErr :=
  let raw_mount_point := partition.mountPoint
  if raw_mount_point == "" then (st, none)
  else
    let mount_point := root_mount_point ++ raw_mount_point
    let st := { st with ledger := st.ledger ++ [mount_point] }
    let fstype := lowerStr partition.fs
    if fstype == "unformatted" then (st, none)
    else
      if ["fat16", "fat32", "exfat", "ntfs", "ext2"].contains fstype then
        let is_boot := raw_mount_point == "/boot" || raw_mount_point == "/boot/efi"
        if !is_boot || fstype == "ntfs" || fstype == "ext2" ||
            (fstype == "exfat" && efiTruthy efi_location) then
          let r := err env (Msg.unsupported fstype raw_mount_point) st
          (r.1, some r.2)
        else
          mount_partition_tail env root_mount_point partition partitions mount_options
            efi_location (if !(fstype == "exfat") then "vfat" else "exfat")
            raw_mount_point mount_point st
      else
        mount_partition_tail env root_mount_point partition partitions mount_options
          efi_location fstype raw_mount_point mount_point st

/-- `enable_swap_partition` (main.py lines 364-369): `swapon` each device,
stopping at the first failure, which is only logged. -/
def enable_swap_partition (env : Env) : List String → World → World
  | [], st => st
  | d :: rest, st =>
    let args := ["swapon", d]
    if env.cmdOK args then
      enable_swap_partition env rest { st with log := st.log ++ [Cmd.cmd args true] }
    else { st with log := st.log ++ [Cmd.cmd args false] }

/-- The mapper-device list for claimed luks swap partitions (main.py
line 389): a direct dictionary access, so a missing `luksMapperName` key
raises `KeyError` before the orchestration loop starts. -/
def luksDevices : List Partition → Except PErr (List String)
  | [] => Except.ok []
  | p :: rest =>
    match p.luksMapperName with
    | none => Except.error (PErr.keyError "luksMapperName")
    | some n =>
      match luksDevices rest with
      | Except.error e => Except.error e
      | Except.ok l => Except.ok (("/dev/mapper/" ++ n) :: l)

/-- The orchestration loop body shared by both phases of `run`
(main.py lines 421-429): mount each entry in order, stopping at the first
exception. -/
def mount_all (env : Env) (root_mount_point : String) (partitions : List Partition)
    (mount_options : Option (List MountRule)) (efi_location : Option String) :
    List Partition → World → World × Option PErr
  | [], st => (st, none)
  | p :: rest, st =>
    match mount_partition env root_mount_point p partitions mount_options efi_location st with
    | (st', none) => mount_all env root_mount_point partitions mount_options efi_location rest st'
    | (st', some e) => (st', some e)

/-- `run` (main.py lines 372-438). -/
def run (env : Env) : World × RunOutcome :=
  let st0 : World := {}
  let partitions := env.partitions
  if partitions.isEmpty then (st0, RunOutcome.configError)
  else
    let claimed_swap := partitions.filter (fun p => p.fs == "linuxswap" && p.claimed)
    let plain_swap := claimed_swap.filter (fun p => p.fsName == "linuxswap")
    let luks_swap := claimed_swap.filter (fun p => p.fsName == "luks" || p.fsName == "luks2")
    match luksDevices luks_swap with
    | Except.error e => (st0, RunOutcome.failed e)
    | Except.ok luks_devs =>
      let swap_devices := plain_swap.map (fun p => p.device) ++ luks_devs
      let st := enable_swap_partition env swap_devices st0
      let root_mount_point := env.rootDirName
      let mount_options := env.mountOptions
      let extra_mounts0 := env.extraMounts.getD []
      let efi_location := if env.firmwareType == "efi" then env.efiSystemPartition else none
      let extra_mounts :=
        if env.firmwareType == "efi" then extra_mounts0
        else extra_mounts0.filter (fun m => !m.efi)
      let physical := sortAscBy (fun p => p.mountPoint)
        (partitions.filter (fun p => !(p.mountPoint == "")))
      match mount_all env root_mount_point partitions mount_options efi_location physical st with
      | (st, some e) =>
        let r := err env (Msg.rewrapped (strOfErr e)) st
        (r.1, RunOutcome.failed r.2)
      | (st, none) =>
        let extra := sortAscBy (fun p => p.mountPoint)
          (extra_mounts.filter (fun p => !(p.mountPoint == "")))
        match mount_all env root_mount_point partitions mount_options efi_location extra st with
        | (st, some e) =>
          let r := err env (Msg.rewrapped (strOfErr e)) st
          (r.1, RunOutcome.failed r.2)
        | (st, none) =>
          ({ st with gsWrites := st.gsWrites ++
              [("rootMountPoint", GSVal.str root_mount_point),
               ("mountOptionsList", GSVal.entries st.optsList),
               ("extraMounts", GSVal.parts extra_mounts)] },
           RunOutcome.ok)

/-- Targets of the successful mount-executor calls in a log, in
chronological order. -/
def succMountTargets (log : List Cmd) : List String :=
  log.filterMap (fun c =>
    match c with
    | Cmd.mount _ t _ _ true => some t
    | _ => none)

/-- Targets of the `umount -v` attempts in a log, in order. -/
def umountAttemptTargets (log : List Cmd) : List String :=
  log.filterMap (fun c =>
    match c with
    | Cmd.umount t _ => some t
    | _ => none)

/-- The full unmount-attempt sequence rollback would produce on a ledger if
every entry were mounted: a normal unmount per target, followed by a lazy
unmount exactly when the normal one fails. -/
def expandAttempts (env : Env) (ds : List String) : List Cmd :=
  ds.flatMap (fun d =>
    if env.umountOK (normPath d) then [Cmd.umount d true]
    else [Cmd.umount d false, Cmd.umountLazy d])

/-- The effective filesystem kind used for the rule lookup: `"efi"` when the
EFI location is set and equals the partition's mount point. -/
def effectiveFs (filesystem : String) (partition : Partition) (efi_location : Option String) : String :=
  if efiTruthy efi_location && partition.mountPoint == efi_location.getD "" then "efi"
  else filesystem

/-- The two-step rule lookup: first the rule whose kind matches, then the
`"default"` rule. -/
def ruleLookup (rules : List MountRule) (kind : String) : Option MountRule :=
  match rules.find? (fun x => x.filesystem == kind) with
  | some r => some r
  | none => rules.find? (fun x => x.filesystem == "default")

/-- The assembled option items for a matched rule: the base options plus the
device-class additions (NVMe for non-rotational NVMe devices, SSD for other
non-rotational devices, HDD otherwise). -/
def deviceOptionItems (env : Env) (options : MountRule) (partition : Partition) : List String :=
  options.options ++
    (if is_ssd_disk env partition then
      (if strStartsWith (basename partition.device) "nvme" then options.nvmeOptions
       else options.ssdOptions)
     else options.hddOptions)

/-- Comma-join an option list, with `"defaults"` for the empty list. -/
def joinOrDefaults (l : List String) : String :=
  if l.isEmpty then "defaults" else joinWith "," l

/-- The filesystem kinds subject to the legacy/foreign gate. -/
def legacyFsKinds : List String :=
  ["fat16", "fat32", "exfat", "ntfs", "ext2"]

/-- Whether a legacy/foreign filesystem kind passes the gate (main.py
lines 279-284): a non-legacy kind always passes; a legacy kind passes only
at `/boot` or `/boot/efi`, never for `ntfs`/`ext2`, and not for `exfat`
when the system is EFI-capable. -/
def fatGate (f mp : String) (efi_location : Option String) : Bool :=
  !(legacyFsKinds.contains f) ||
    ((mp == "/boot" || mp == "/boot/efi") && !(f == "ntfs") && !(f == "ext2") &&
      !(f == "exfat" && efiTruthy efi_location))

/-- FAT normalisation after the gate (main.py line 284). -/
def normFat (f : String) : String :=
  if legacyFsKinds.contains f then (if f == "exfat" then "exfat" else "vfat") else f

/-- The global-storage keys this module can write before the final
publishes. -/
def btrfsKeys : List String :=
  ["btrfsSwapSubvol", "btrfsSubvolumes", "btrfsRootSubvolume"]

/-- An empty starting state. -/
def w0 : World := {}

/-- Concrete run for the rollback-order analysis: two physical ext4
partitions, two extra mounts, the mount of `/rt/proc` fails. -/
def cenv1 : Env :=
  { partitions :=
      [{ device := "/dev/sda2", mountPoint := "/", fs := "ext4" },
       { device := "/dev/sda3", mountPoint := "/home", fs := "ext4" }],
    extraMounts := some
      [{ device := "/dev", mountPoint := "/dev", fs := "none", options := some ["bind"] },
       { device := "proc", mountPoint := "/proc", fs := "proc" }],
    firmwareType := "bios",
    mountOK := fun _ t _ _ => !(t == "/rt/proc") }

/-- Concrete run for the publish analysis: one Btrfs root partition whose
scratch mount fails after the subvolume list has been published. -/
def cenv2 : Env :=
  { partitions := [{ device := "/dev/sda1", mountPoint := "/", fs := "btrfs" }],
    mountOK := fun _ t _ _ => !(t == "/rt-b0"),
    setupDirName := fun n => "/rt-b" ++ toString n }

/-- Concrete environment for the ledger analysis, zfs side: one pool
matching the root partition, every external command succeeding. -/
def cenv3 : Env :=
  { zfsPoolInfo := some [⟨"/", "rpool", "ds0"⟩],
    zfsDatasets := some [⟨"/", "rpool", "ds0", CanMount.bTrue⟩] }

/-- An unformatted partition with a non-empty mount point. -/
def punf : Partition :=
  { device := "/dev/sda7", mountPoint := "/data", fs := "unformatted" }

/-- A zfs root partition. -/
def pzfs : Partition :=
  { device := "/dev/sda8", mountPoint := "/", fs := "zfs" }

/-- Environment whose mount executor always fails. -/
def cenv5 : Env :=
  { mountOK := fun _ _ _ _ => false }

/-- An ext4 partition at `/data`. -/
def pext : Partition :=
  { device := "/dev/sda5", mountPoint := "/data", fs := "ext4" }

/-- Environment for the planner analysis: swap configured as a file. -/
def cenv6 : Env :=
  { swapIsFile := true }

/-- Partition list with a dedicated partition mounted at `/swap`. -/
def partsSwap : List Partition :=
  [{ device := "/dev/sda4", mountPoint := "/swap", fs := "ext4" }]

/-- Environment for the planner witness: no swap file configured. -/
def cenvC : Env := {}

/-- Partition list with a dedicated `/home` partition (scenario C). -/
def partsHome : List Partition :=
  [{ device := "/dev/sda2", mountPoint := "/", fs := "btrfs" },
   { device := "/dev/sda3", mountPoint := "/home", fs := "ext4" }]

/-- Environment with non-empty zfs pool metadata that does not match the
partition below. -/
def cenv8 : Env :=
  { zfsPoolInfo := some [⟨"/data2", "pool2", "ds2"⟩] }

/-- A zfs partition whose mount point has no entry in `cenv8`'s pool list. -/
def p8 : Partition :=
  { device := "/dev/sdb1", mountPoint := "/", fs := "zfs" }

/-- Environment reporting a non-rotational disk for scenario A. -/
def cenvA : Env :=
  { rotational := fun d => if d == "sda" then some ("0" ++ "\n") else none }

/-- Rule table for scenario A. -/
def rulesA : List MountRule :=
  [{ filesystem := "btrfs", options := ["noatime"], ssdOptions := ["ssd"] }]

/-- A Btrfs root partition on `/dev/sda1` for scenario A. -/
def pA : Partition :=
  { device := "/dev/sda1", mountPoint := "/", fs := "btrfs" }

/-- A partition carrying an explicit empty option list. -/
def pEmptyOpts : Partition :=
  { device := "/dev/sda6", mountPoint := "/var", fs := "ext4", options := some [] }

/-- An ntfs partition targeted at `/boot` (scenario E). -/
def pNtfsBoot : Partition :=
  { device := "/dev/sda9", mountPoint := "/boot", fs := "ntfs" }

/-- All-success environment with a single ext4 root partition. -/
def cenvS : Env :=
  { partitions := [{ device := "/dev/sda1", mountPoint := "/", fs := "ext4" }] }

/-- A Btrfs partition at the install root for the all-success trace. -/
def pbtr : Partition :=
  { device := "/dev/sda1", mountPoint := "/", fs := "btrfs" }

/-- A state with two mounted ledger entries, for rollback analysis. -/
def stW : World :=
  { mounted := ["/a", "/b"], ledger := ["/a", "/b"] }

theorem gmo_explicit (env : Env) (filesystem : String) (mo : Option (List MountRule))
    (p : Partition) (efi : Option String) (l : List String) (h : p.options = some l) :
    get_mount_options env filesystem mo p efi = joinWith "," l := by
  unfold get_mount_options
  rw [h]

theorem gmo_noRules (env : Env) (filesystem : String) (p : Partition)
    (efi : Option String) (h : p.options = none) :
    get_mount_options env filesystem none p efi = "defaults" := by
  unfold get_mount_options
  rw [h]

theorem gmo_rules (env : Env) (filesystem : String) (rules : List MountRule)
    (p : Partition) (efi : Option String) (h : p.options = none) :
    get_mount_options env filesystem (some rules) p efi =
      (match ruleLookup rules (effectiveFs filesystem p efi) with
       | none => "defaults"
       | some r => joinOrDefaults (deviceOptionItems env r p)) := by
  unfold get_mount_options ruleLookup effectiveFs deviceOptionItems joinOrDefaults
  rw [h]

/-- C7: the mount option resolver obeys the precedence: an explicit
per-partition option list is returned comma-joined, overriding everything
else; otherwise the rule for the effective filesystem kind is used, falling
back to the `"default"` rule and then to the literal string `"defaults"`
(also when no rule table is configured at all); and an empty assembled
option list yields `"defaults"`. -/
theorem C7_resolver_precedence (env : Env) (filesystem : String)
    (mo : Option (List MountRule)) (p : Partition) (efi : Option String) :
    (∀ l, p.options = some l →
      get_mount_options env filesystem mo p efi = joinWith "," l)
    ∧ (p.options = none → mo = none →
      get_mount_options env filesystem mo p efi = "defaults")
    ∧ (∀ rules, p.options = none → mo = some rules →
      ruleLookup rules (effectiveFs filesystem p efi) = none →
      get_mount_options env filesystem mo p efi = "defaults")
    ∧ (∀ rules r, p.options = none → mo = some rules →
      ruleLookup rules (effectiveFs filesystem p efi) = some r →
      get_mount_options env filesystem mo p efi = joinOrDefaults (deviceOptionItems env r p)) := by
  refine ⟨fun l h => gmo_explicit env filesystem mo p efi l h, ?_, ?_, ?_⟩
  · intro h hmo; subst hmo; exact gmo_noRules env filesystem p efi h
  · intro rules h hmo hr; subst hmo
    rw [gmo_rules env filesystem rules p efi h, hr]
  · intro rules r h hmo hr; subst hmo
    rw [gmo_rules env filesystem rules p efi h, hr]

/-- Witness for C7 at concrete inputs: an explicit option list wins, and a
matched rule with empty assembled items yields `"defaults"`. -/
theorem C7_resolver_precedence_witness :
    pEmptyOpts.options = some [] ∧
    get_mount_options cenvA "ext4" (some rulesA) pEmptyOpts none = joinWith "," [] ∧
    pA.options = none ∧ ruleLookup rulesA (effectiveFs "btrfs" pA none) = some
      { filesystem := "btrfs", options := ["noatime"], ssdOptions := ["ssd"] } ∧
    get_mount_options cenvA "btrfs" (some rulesA) pA none =
      joinOrDefaults (deviceOptionItems cenvA
        { filesystem := "btrfs", options := ["noatime"], ssdOptions := ["ssd"] } pA) :=
  ⟨rfl,
   (C7_resolver_precedence cenvA "ext4" (some rulesA) pEmptyOpts none).1 [] rfl,
   rfl, by decide,
   (C7_resolver_precedence cenvA "btrfs" (some rulesA) pA none).2.2.2 rulesA
     { filesystem := "btrfs", options := ["noatime"], ssdOptions := ["ssd"] } rfl rfl (by decide)⟩

/-- C9: when a rule matches and no explicit options are given, the resolver
appends NVMe options for non-rotational NVMe devices, SSD options for other
non-rotational devices, and HDD options for rotational devices, treating a
failed rotational query (oracle `none`) as rotational. -/
theorem C9_device_class_options (env : Env) (filesystem : String)
    (rules : List MountRule) (r : MountRule) (p : Partition) (efi : Option String)
    (h : p.options = none)
    (hr : ruleLookup rules (effectiveFs filesystem p efi) = some r) :
    (env.rotational (disk_name_for_partition p) = none →
      get_mount_options env filesystem (some rules) p efi =
        joinOrDefaults (r.options ++ r.hddOptions))
    ∧ (∀ c, env.rotational (disk_name_for_partition p) = some c → (c == "0\n") = false →
      get_mount_options env filesystem (some rules) p efi =
        joinOrDefaults (r.options ++ r.hddOptions))
    ∧ (∀ c, env.rotational (disk_name_for_partition p) = some c → (c == "0\n") = true →
      strStartsWith (basename p.device) "nvme" = true →
      get_mount_options env filesystem (some rules) p efi =
        joinOrDefaults (r.options ++ r.nvmeOptions))
    ∧ (∀ c, env.rotational (disk_name_for_partition p) = some c → (c == "0\n") = true →
      strStartsWith (basename p.device) "nvme" = false →
      get_mount_options env filesystem (some rules) p efi =
        joinOrDefaults (r.options ++ r.ssdOptions)) := by
  have base := gmo_rules env filesystem rules p efi h
  rw [hr] at base
  refine ⟨?_, ?_, ?_, ?_⟩
  · intro hq
    rw [base]
    unfold deviceOptionItems is_ssd_disk
    rw [hq]
    simp
  · intro c hq hc
    rw [base]
    unfold deviceOptionItems is_ssd_disk
    rw [hq]
    simp [hc]
  · intro c hq hc hn
    rw [base]
    unfold deviceOptionItems is_ssd_disk
    rw [hq]
    simp [hc, hn]
  · intro c hq hc hn
    rw [base]
    unfold deviceOptionItems is_ssd_disk
    rw [hq]
    simp [hc, hn]

/-- Witness for C9, scenario A: a non-rotational non-NVMe Btrfs partition
under the rule `{btrfs: [noatime], ssdOptions: [ssd]}` resolves to
`"noatime,ssd"`. -/
theorem C9_device_class_options_witness :
    pA.options = none ∧
    get_mount_options cenvA "btrfs" (some rulesA) pA none = "noatime,ssd" := by
  refine ⟨rfl, ?_⟩
  have h := (C9_device_class_options cenvA "btrfs" rulesA
    { filesystem := "btrfs", options := ["noatime"], ssdOptions := ["ssd"] } pA none
    rfl (by decide)).2.2.2 ("0" ++ "\n") (by decide) (by decide) (by decide)
  rw [h]
  decide

/-- C10: a partition carrying an explicit `options` list makes the resolver
return its comma-join, independently of the rule table, of the filesystem
kind, of the EFI location and of every disk oracle; an explicit empty list
yields the empty string. -/
theorem C10_explicit_options (env env2 : Env) (filesystem filesystem2 : String)
    (mo mo2 : Option (List MountRule)) (p : Partition) (efi efi2 : Option String)
    (l : List String) (h : p.options = some l) :
    get_mount_options env filesystem mo p efi = joinWith "," l
    ∧ get_mount_options env filesystem mo p efi = get_mount_options env2 filesystem2 mo2 p efi2
    ∧ (l = [] → get_mount_options env filesystem mo p efi = "") := by
  refine ⟨gmo_explicit env filesystem mo p efi l h, ?_, ?_⟩
  · rw [gmo_explicit env filesystem mo p efi l h, gmo_explicit env2 filesystem2 mo2 p efi2 l h]
  · intro hl; subst hl
    rw [gmo_explicit env filesystem mo p efi [] h]
    rfl

/-- Witness for C10: the explicit empty option list of `pEmptyOpts` resolves
to the empty string even under a rule table and an SSD oracle. -/
theorem C10_explicit_options_witness :
    pEmptyOpts.options = some [] ∧
    get_mount_options cenvA "ext4" (some rulesA) pEmptyOpts none = "" :=
  ⟨rfl, (C10_explicit_options cenvA cenvS "ext4" "btrfs" (some rulesA) none pEmptyOpts
    none none [] rfl).2.2 rfl⟩

/-- C8: evaluating `mount_zfs` on a partition whose mount point has no
matching entry in a non-empty `zfsPoolInfo` list.  The source leaves
`pool_name` unassigned and crashes with a `NameError` at the `zpool import`
call instead of raising the `ZfsException` with message
`"Internal error mounting zfs datasets"` that the empty-list case (and the
specification) uses. -/
theorem C8_missing_pool_metadata :
    (mount_zfs cenv8 "/rt" p8 w0).2 = some (PErr.nameError "pool_name")
    ∧ (mount_zfs { cenv8 with zfsPoolInfo := some [] } "/rt" p8 w0).2 =
        some (PErr.zfs "Internal error mounting zfs datasets") := by
  constructor
  · rfl
  · rfl

theorem tail_direct_shape (env : Env) (root : String) (p : Partition)
    (parts : List Partition) (mo : Option (List MountRule)) (efi : Option String)
    (fstype raw mp : String) (st : World)
    (hz : (fstype == "zfs") = false)
    (hb : (fstype == "btrfs" && raw == "/") = false) :
    (mount_partition_tail env root p parts mo efi fstype raw mp st).2 = none ∨
    ∃ d, (mount_partition_tail env root p parts mo efi fstype raw mp st).2 =
      some (PErr.exc (Msg.cannotMount d)) := by
  unfold mount_partition_tail
  simp only [hz, hb, Bool.false_eq_true, if_false, Bool.not_false, if_true]
  cases hm : env.mountOK
      (match p.luksMapperName with
       | some n => "/dev/mapper/" ++ n
       | none => p.device)
      mp fstype (get_mount_options env fstype mo p efi) with
  | true => simp [hm]
  | false =>
    simp only [hm, Bool.false_eq_true, if_false]
    right
    exact ⟨_, rfl⟩

/-- C4: for every filesystem kind in the legacy list, `mount_partition`
fails with the unsupported-filesystem error exactly when the mount point is
not `/boot` or `/boot/efi`, or the kind is `ntfs` or `ext2`, or the kind is
`exfat` on an EFI-capable system; in particular `ntfs` at `/boot` aborts. -/
theorem C4_fs_gate (env : Env) (root : String) (p : Partition)
    (parts : List Partition) (mo : Option (List MountRule)) (efi : Option String)
    (st : World)
    (hmp : (p.mountPoint == "") = false)
    (hfs : legacyFsKinds.contains (lowerStr p.fs) = true) :
    (mount_partition env root p parts mo efi st).2 =
      some (PErr.exc (Msg.unsupported (lowerStr p.fs) p.mountPoint))
    ↔ (¬(p.mountPoint = "/boot" ∨ p.mountPoint = "/boot/efi")
       ∨ lowerStr p.fs = "ntfs" ∨ lowerStr p.fs = "ext2"
       ∨ (lowerStr p.fs = "exfat" ∧ efiTruthy efi = true)) := by
  unfold mount_partition
  have hfs' : ((["fat16", "fat32", "exfat", "ntfs", "ext2"] : List String).contains
      (lowerStr p.fs)) = true := hfs
  have hunf : (lowerStr p.fs == "unformatted") = false := by
    revert hfs'
    cases h : lowerStr p.fs == "unformatted" with
    | false => intro _; rfl
    | true =>
      intro hc
      rw [eq_of_beq h] at hc
      exact absurd hc (by decide)
  simp only [hmp, hfs', hunf, Bool.false_eq_true, if_false, if_true]
  cases hgate : (!(p.mountPoint == "/boot" || p.mountPoint == "/boot/efi")
      || lowerStr p.fs == "ntfs" || lowerStr p.fs == "ext2"
      || (lowerStr p.fs == "exfat" && efiTruthy efi)) with
  | true =>
    simp only [hgate, if_true]
    constructor
    · intro _
      simp only [Bool.or_eq_true, Bool.and_eq_true, Bool.not_eq_true',
        Bool.or_eq_false_iff, beq_iff_eq, beq_eq_false_iff_ne] at hgate
      tauto
    · intro _
      rfl
  | false =>
    simp only [hgate, Bool.false_eq_true, if_false]
    have hshape := tail_direct_shape env root p parts mo efi
      (if !(lowerStr p.fs == "exfat") then "vfat" else "exfat")
      p.mountPoint (root ++ p.mountPoint) { st with ledger := st.ledger ++ [root ++ p.mountPoint] }
      (by cases h : lowerStr p.fs == "exfat" <;> simp [h])
      (by cases h : lowerStr p.fs == "exfat" <;> simp [h])
    constructor
    · intro hres
      rcases hshape with hnone | ⟨d, hd⟩
      · rw [hres] at hnone; exact absurd hnone (by simp)
      · rw [hres] at hd
        have := Option.some.inj hd
        exact absurd this (by simp)
    · intro hrhs
      exfalso
      simp only [Bool.or_eq_false_iff, Bool.and_eq_false_iff, Bool.not_eq_false',
        Bool.or_eq_true, beq_iff_eq, beq_eq_false_iff_ne] at hgate
      obtain ⟨⟨⟨hboot, hntfs⟩, hext2⟩, hexfat⟩ := hgate
      rcases hrhs with hnb | hn | he | ⟨hx, hef⟩
      · exact hnb (by tauto)
      · exact hntfs hn
      · exact hext2 he
      · rcases hexfat with h1 | h2
        · exact h1 hx
        · rw [hef] at h2; exact absurd h2 (by decide)

/-- Witness for C4, scenario E: `ntfs` targeted at `/boot` is rejected with
the unsupported-filesystem error despite the boot-path exception. -/
theorem C4_fs_gate_witness :
    (pNtfsBoot.mountPoint == "") = false ∧
    legacyFsKinds.contains (lowerStr pNtfsBoot.fs) = true ∧
    (mount_partition cenvS "/rt" pNtfsBoot [pNtfsBoot] none none w0).2 =
      some (PErr.exc (Msg.unsupported (lowerStr pNtfsBoot.fs) pNtfsBoot.mountPoint)) :=
  ⟨by decide, by decide,
   (C4_fs_gate cenvS "/rt" pNtfsBoot [pNtfsBoot] none none w0 (by decide) (by decide)).mpr
     (Or.inr (Or.inl (by decide)))⟩

/-- Counterexample to C1 as stated.  In the run `cenv1` three mounts succeed
(chronologically `/rt/`, `/rt/home`, `/rt/dev`) and the fourth fails, but
rollback attempts the unmounts in reverse-lexicographic ledger order
`/rt/home`, `/rt/dev`, `/rt/` — not in reverse-chronological order
`/rt/dev`, `/rt/home`, `/rt/` — and afterwards the ledger still holds all
four entries rather than none. -/
theorem C1_counterexample :
    succMountTargets (run cenv1).1.log = ["/rt/", "/rt/home", "/rt/dev"]
    ∧ umountAttemptTargets (run cenv1).1.log = ["/rt/home", "/rt/dev", "/rt/"]
    ∧ (umountAttemptTargets (run cenv1).1.log ==
        (succMountTargets (run cenv1).1.log).reverse) = false
    ∧ (run cenv1).1.ledger = ["/rt/", "/rt/home", "/rt/dev", "/rt/proc"]
    ∧ (run cenv1).1.ledger.isEmpty = false
    ∧ (run cenv1).2 = RunOutcome.failed (PErr.exc (Msg.rewrapped ("Cannot mount proc"))) := by
  refine ⟨?_, ?_, ?_, ?_, ?_, ?_⟩ <;> decide

/-- Counterexample to C2 as stated.  The run `cenv2` fails (the scratch
mount of the Btrfs root partition fails), yet the Btrfs subvolume list has
already been published to shared run state. -/
theorem C2_counterexample :
    (run cenv2).2 = RunOutcome.failed
      (PErr.exc (Msg.rewrapped ("Cannot mount btrfs for subvolume creation /dev/sda1")))
    ∧ ("btrfsSubvolumes", GSVal.subvols defaultSubvolLayout) ∈ (run cenv2).1.gsWrites := by
  constructor
  · decide
  · decide

/-- Counterexample to C3 as stated.  An unformatted partition with mount
point `/data` leaves the entry `/rt/data` in the ledger although no mount
was ever attempted (empty command log, nothing mounted), and a successfully
ZFS-handled root partition also leaves its entry `/rt/` in the ledger. -/
theorem C3_counterexample :
    (mount_partition cenv3 "/rt" punf [punf] none none w0).1.ledger = ["/rt/data"]
    ∧ (mount_partition cenv3 "/rt" punf [punf] none none w0).2 = none
    ∧ (mount_partition cenv3 "/rt" punf [punf] none none w0).1.log = []
    ∧ (mount_partition cenv3 "/rt" punf [punf] none none w0).1.mounted = []
    ∧ (mount_partition cenv3 "/rt" pzfs [pzfs] none none w0).1.ledger = ["/rt/"]
    ∧ (mount_partition cenv3 "/rt" pzfs [pzfs] none none w0).2 = none := by
  refine ⟨?_, ?_, ?_, ?_, ?_, ?_⟩ <;> decide

/-- Counterexample to C5 as stated.  The direct mount of `/data` fails, yet
the options list holds an entry for the failed mount point (and the command
log shows no successful mount). -/
theorem C5_counterexample :
    (mount_partition cenv5 "/rt" pext [pext] none none w0).1.optsList =
      [⟨"/data", "defaults"⟩]
    ∧ (mount_partition cenv5 "/rt" pext [pext] none none w0).2 =
      some (PErr.exc (Msg.cannotMount "/dev/sda5"))
    ∧ succMountTargets (mount_partition cenv5 "/rt" pext [pext] none none w0).1.log = [] := by
  refine ⟨?_, ?_, ?_⟩ <;> decide

/-- Counterexample to C6 as stated.  With swap configured as a file and a
dedicated partition mounted at `/swap`, the planner's output contains the
appended swap subvolume entry at `/swap`, whose mount point equals the
dedicated non-root partition's mount point. -/
theorem C6_counterexample :
    (⟨"/swap", "/@swap"⟩ : Subvol) ∈ (get_btrfs_subvolumes cenv6 partsSwap w0).1
    ∧ "/swap" ∈ partsSwap.map (fun p => p.mountPoint)
    ∧ ("/swap" == "/") = false
    ∧ ("/swap" == "") = false := by
  refine ⟨?_, ?_, ?_, ?_⟩ <;> decide

theorem mem_insertDesc (a b : String) (l : List String) :
    a ∈ insertDesc b l ↔ a = b ∨ a ∈ l := by
  induction l with
  | nil => simp [insertDesc]
  | cons c rest ih =>
    simp only [insertDesc]
    by_cases h : strLt c b = true
    · rw [if_pos h]
      simp only [List.mem_cons]
    · rw [if_neg h]
      simp only [List.mem_cons, ih]
      tauto

theorem mem_sortDesc_aux (l : List String) :
    ∀ (acc : List String) (a : String),
    (a ∈ l.foldl (fun acc x => insertDesc x acc) acc) ↔ a ∈ acc ∨ a ∈ l := by
  induction l with
  | nil => simp
  | cons b rest ih =>
    intro acc a
    simp only [List.foldl_cons, ih, mem_insertDesc, List.mem_cons]
    tauto

theorem mem_sortDesc (a : String) (l : List String) : a ∈ sortDesc l ↔ a ∈ l := by
  unfold sortDesc
  rw [mem_sortDesc_aux]
  simp

theorem errLoop_frame (env : Env) (ds : List String) : ∀ (st : World),
    (errLoop env ds st).ledger = st.ledger
    ∧ (errLoop env ds st).optsList = st.optsList
    ∧ (errLoop env ds st).gsWrites = st.gsWrites
    ∧ (errLoop env ds st).tmp = st.tmp
    ∧ ∃ Δ, (errLoop env ds st).log = st.log ++ Δ
        ∧ Δ.Sublist (expandAttempts env ds) := by
  induction ds with
  | nil => intro st; exact ⟨rfl, rfl, rfl, rfl, [], by simp [errLoop], by simp [expandAttempts]⟩
  | cons d rest ih =>
    intro st
    unfold errLoop
    have hexp : expandAttempts env (d :: rest) =
        (if env.umountOK (normPath d) then [Cmd.umount d true]
         else [Cmd.umount d false, Cmd.umountLazy d]) ++ expandAttempts env rest := by
      simp [expandAttempts]
    by_cases hmem : normPath d ∈ st.mounted
    · rw [if_pos hmem]
      cases hu : env.umountOK (normPath d)
      · cases hl : env.umountLazyOK (normPath d)
        · simp only [hu, hl, Bool.false_eq_true, if_false]
          obtain ⟨h1, h2, h3, h4, Δ, h5, h6⟩ := ih
            { st with log := st.log ++ [Cmd.umount d false, Cmd.umountLazy d] }
          refine ⟨h1, h2, h3, h4, [Cmd.umount d false, Cmd.umountLazy d] ++ Δ, ?_, ?_⟩
          · rw [h5]; simp
          · rw [hexp, hu]
            simp only [Bool.false_eq_true, if_false]
            exact List.Sublist.append (List.Sublist.refl _) h6
        · simp only [hu, hl, Bool.false_eq_true, if_false, if_true]
          obtain ⟨h1, h2, h3, h4, Δ, h5, h6⟩ := ih
            { st with mounted := st.mounted.erase (normPath d),
                      log := st.log ++ [Cmd.umount d false, Cmd.umountLazy d] }
          refine ⟨h1, h2, h3, h4, [Cmd.umount d false, Cmd.umountLazy d] ++ Δ, ?_, ?_⟩
          · rw [h5]; simp
          · rw [hexp, hu]
            simp only [Bool.false_eq_true, if_false]
            exact List.Sublist.append (List.Sublist.refl _) h6
      · simp only [hu, if_true]
        obtain ⟨h1, h2, h3, h4, Δ, h5, h6⟩ := ih
          { st with mounted := st.mounted.erase (normPath d),
                    log := st.log ++ [Cmd.umount d true] }
        refine ⟨h1, h2, h3, h4, [Cmd.umount d true] ++ Δ, ?_, ?_⟩
        · rw [h5]; simp
        · rw [hexp, hu]
          simp only [if_true]
          exact List.Sublist.append (List.Sublist.refl _) h6
    · rw [if_neg hmem]
      obtain ⟨h1, h2, h3, h4, Δ, h5, h6⟩ := ih st
      refine ⟨h1, h2, h3, h4, Δ, h5, ?_⟩
      rw [hexp]
      exact h6.trans (List.sublist_append_right _ _)

theorem errLoop_exact (env : Env) (ds : List String) : ∀ (st : World),
    (ds.map normPath).Nodup → (∀ d ∈ ds, normPath d ∈ st.mounted) →
    (errLoop env ds st).log = st.log ++ expandAttempts env ds := by
  induction ds with
  | nil => intro st _ _; simp [errLoop, expandAttempts]
  | cons d rest ih =>
    intro st hnd hm
    have hpair : (∀ x ∈ rest, ¬ normPath x = normPath d) ∧ (rest.map normPath).Nodup := by
      simpa using hnd
    have hnd' : (rest.map normPath).Nodup := hpair.2
    have hne : ∀ d' ∈ rest, normPath d' ≠ normPath d := fun d' hd' => hpair.1 d' hd'
    have hexp : expandAttempts env (d :: rest) =
        (if env.umountOK (normPath d) then [Cmd.umount d true]
         else [Cmd.umount d false, Cmd.umountLazy d]) ++ expandAttempts env rest := by
      simp [expandAttempts]
    unfold errLoop
    rw [if_pos (hm d (List.mem_cons_self d rest))]
    cases hu : env.umountOK (normPath d)
    · cases hl : env.umountLazyOK (normPath d)
      · simp only [hu, hl, Bool.false_eq_true, if_false]
        rw [ih { st with log := st.log ++ [Cmd.umount d false, Cmd.umountLazy d] } hnd'
          (fun d' hd' => hm d' (List.mem_cons_of_mem d hd'))]
        rw [hexp, hu]
        simp
      · simp only [hu, hl, Bool.false_eq_true, if_false, if_true]
        rw [ih { st with mounted := st.mounted.erase (normPath d),
                         log := st.log ++ [Cmd.umount d false, Cmd.umountLazy d] } hnd'
          (fun d' hd' => (List.mem_erase_of_ne (hne d' hd')).mpr
            (hm d' (List.mem_cons_of_mem d hd')))]
        rw [hexp, hu]
        simp
    · simp only [hu, if_true]
      rw [ih { st with mounted := st.mounted.erase (normPath d),
                       log := st.log ++ [Cmd.umount d true] } hnd'
        (fun d' hd' => (List.mem_erase_of_ne (hne d' hd')).mpr
          (hm d' (List.mem_cons_of_mem d hd')))]
      rw [hexp, hu]
      simp

/-- C1 (amended): rollback attempts unmounts on the ledger entries sorted in
reverse-lexicographic path order (which coincides with reverse-chronological
order only within a single sorted phase), skipping entries that are not
currently mounted, with a normal unmount first and a lazy unmount exactly
when the normal one fails; the ledger list itself is left unchanged, and
when every ledger entry is mounted and the entries are distinct the attempt
sequence is exactly the full reverse-lexicographic sequence. -/
theorem C1_amended (env : Env) (m : Msg) (st : World) :
    (err env m st).2 = PErr.exc m
    ∧ (err env m st).1.ledger = st.ledger
    ∧ (∃ Δ, (err env m st).1.log = st.log ++ Δ
        ∧ Δ.Sublist (expandAttempts env (sortDesc st.ledger)))
    ∧ (((sortDesc st.ledger).map normPath).Nodup →
        (∀ d ∈ st.ledger, normPath d ∈ st.mounted) →
        (err env m st).1.log = st.log ++ expandAttempts env (sortDesc st.ledger)) := by
  refine ⟨rfl, (errLoop_frame env (sortDesc st.ledger) st).1,
    (errLoop_frame env (sortDesc st.ledger) st).2.2.2.2, ?_⟩
  intro hnd hm
  exact errLoop_exact env (sortDesc st.ledger) st hnd
    (fun d hd => hm d ((mem_sortDesc d st.ledger).mp hd))

/-- Witness for C1 (amended) at a concrete two-entry ledger: the rollback
log is exactly the reverse-lexicographic unmount sequence and the ledger is
unchanged. -/
theorem C1_amended_witness :
    ((sortDesc stW.ledger).map normPath).Nodup
    ∧ (∀ d ∈ stW.ledger, normPath d ∈ stW.mounted)
    ∧ (err cenvC Msg.rootSubvolMissing stW).1.log =
        stW.log ++ expandAttempts cenvC (sortDesc stW.ledger)
    ∧ (err cenvC Msg.rootSubvolMissing stW).1.ledger = stW.ledger :=
  ⟨by decide, by decide,
   (C1_amended cenvC Msg.rootSubvolMissing stW).2.2.2 (by decide) (by decide),
   (C1_amended cenvC Msg.rootSubvolMissing stW).2.1⟩

theorem planner_filter_spec (env : Env) (parts : List Partition) (s : Subvol)
    (hs : s ∈ (effectiveLayout env).filter (fun s =>
      s.mountPoint == "/" ||
      !(((parts.map (fun p => p.mountPoint)).filter (fun m => !(m == "/"))).any (fun m =>
          !(m == "") && (s.mountPoint == m || strStartsWith s.mountPoint (m ++ "/")))))) :
    s.mountPoint = "/"
    ∨ ∀ m ∈ parts.map (fun p => p.mountPoint), m ≠ "" → m ≠ "/" →
        s.mountPoint ≠ m ∧ strStartsWith s.mountPoint (m ++ "/") = false := by
  obtain ⟨_, hcond⟩ := List.mem_filter.mp hs
  cases hroot : s.mountPoint == "/" with
  | true => exact Or.inl (by exact eq_of_beq hroot)
  | false =>
    right
    rw [hroot] at hcond
    simp only [Bool.false_or, Bool.not_eq_true'] at hcond
    intro m hm hne hnr
    have hmem : m ∈ (parts.map (fun p => p.mountPoint)).filter (fun m => !(m == "/")) := by
      refine List.mem_filter.mpr ⟨hm, ?_⟩
      simp [hnr]
    have := List.any_eq_false.mp hcond m hmem
    rw [Bool.not_eq_true] at this
    rw [Bool.and_eq_false_iff] at this
    rcases this with h1 | h2
    · exact absurd (by simp [hne] : (!(m == "") : Bool) = true) (by simp [h1])
    · rw [Bool.or_eq_false_iff] at h2
      exact ⟨by simpa using h2.1, h2.2⟩

/-- C6 (amended): every entry of the planner's output either is the root
entry, or is the swap-file entry appended after the dedicated-partition
filter, or neither equals nor lies under (on path-segment boundaries) the
mount point of a dedicated non-root partition; every root entry of the
effective configured layout is always kept; and, in omission form, any
non-root layout entry that equals or lies under a dedicated non-root
partition's mount point can appear in the output only as the post-filter
swap-file entry. -/
theorem C6_amended (env : Env) (parts : List Partition) (st : World) :
    (∀ s ∈ (get_btrfs_subvolumes env parts st).1,
      s.mountPoint = "/"
      ∨ (env.swapIsFile = true ∧ s = ⟨"/swap", env.cfgBtrfsSwapSubvol.getD "/@swap"⟩)
      ∨ ∀ m ∈ parts.map (fun p => p.mountPoint), m ≠ "" → m ≠ "/" →
          s.mountPoint ≠ m ∧ strStartsWith s.mountPoint (m ++ "/") = false)
    ∧ (∀ s ∈ effectiveLayout env, s.mountPoint = "/" →
        s ∈ (get_btrfs_subvolumes env parts st).1)
    ∧ (∀ s ∈ effectiveLayout env,
        (∃ m ∈ parts.map (fun p => p.mountPoint), m ≠ "" ∧ m ≠ "/" ∧
          (s.mountPoint = m ∨ strStartsWith s.mountPoint (m ++ "/") = true)) →
        s.mountPoint ≠ "/" →
        s ∈ (get_btrfs_subvolumes env parts st).1 →
        env.swapIsFile = true ∧ s = ⟨"/swap", env.cfgBtrfsSwapSubvol.getD "/@swap"⟩) := by
  have hclass : ∀ s ∈ (get_btrfs_subvolumes env parts st).1,
      s.mountPoint = "/"
      ∨ (env.swapIsFile = true ∧ s = ⟨"/swap", env.cfgBtrfsSwapSubvol.getD "/@swap"⟩)
      ∨ ∀ m ∈ parts.map (fun p => p.mountPoint), m ≠ "" → m ≠ "/" →
          s.mountPoint ≠ m ∧ strStartsWith s.mountPoint (m ++ "/") = false := by
    intro s hs
    unfold get_btrfs_subvolumes at hs
    cases hswap : env.swapIsFile with
    | false =>
      rw [hswap] at hs
      simp only [Bool.false_eq_true, if_false] at hs
      rcases planner_filter_spec env parts s hs with h | h
      · exact Or.inl h
      · exact Or.inr (Or.inr h)
    | true =>
      rw [hswap] at hs
      simp only [if_true] at hs
      rcases List.mem_append.mp hs with hf | hsw
      · rcases planner_filter_spec env parts s hf with h | h
        · exact Or.inl h
        · exact Or.inr (Or.inr h)
      · exact Or.inr (Or.inl ⟨rfl, by simpa using hsw⟩)
  refine ⟨hclass, ?_, ?_⟩
  · intro s hs hroot
    have hf : s ∈ (effectiveLayout env).filter (fun s =>
        s.mountPoint == "/" ||
        !(((parts.map (fun p => p.mountPoint)).filter (fun m => !(m == "/"))).any (fun m =>
            !(m == "") && (s.mountPoint == m || strStartsWith s.mountPoint (m ++ "/"))))) := by
      refine List.mem_filter.mpr ⟨hs, ?_⟩
      simp [hroot]
    unfold get_btrfs_subvolumes
    cases hswap : env.swapIsFile with
    | false => simpa [hswap] using hf
    | true =>
      simp only [hswap, if_true]
      exact List.mem_append_left _ hf
  · intro s _ hcov hroot hmem
    rcases hclass s hmem with hr | hsw | huncov
    · exact absurd hr hroot
    · exact hsw
    · obtain ⟨m, hm, hne, hnr, hc⟩ := hcov
      obtain ⟨hne1, hne2⟩ := huncov m hm hne hnr
      rcases hc with h | h
      · exact absurd h hne1
      · rw [h] at hne2
        exact absurd hne2 (by decide)

/-- Witness for C6 (amended), scenario C: with a dedicated `/home` partition
and the default layout, the planner returns only the root entry, which the
theorem classifies as the root disjunct; the covered `/home` subvolume is
concretely absent from the output. -/
theorem C6_amended_witness :
    (⟨"/", "/@"⟩ : Subvol) ∈ (get_btrfs_subvolumes cenvC partsHome w0).1
    ∧ (get_btrfs_subvolumes cenvC partsHome w0).1 = [⟨"/", "/@"⟩]
    ∧ ((⟨"/", "/@"⟩ : Subvol).mountPoint = "/"
      ∨ (cenvC.swapIsFile = true ∧ (⟨"/", "/@"⟩ : Subvol) =
          ⟨"/swap", cenvC.cfgBtrfsSwapSubvol.getD "/@swap"⟩)
      ∨ ∀ m ∈ partsHome.map (fun p => p.mountPoint), m ≠ "" → m ≠ "/" →
          (⟨"/", "/@"⟩ : Subvol).mountPoint ≠ m ∧
          strStartsWith (⟨"/", "/@"⟩ : Subvol).mountPoint (m ++ "/") = false)
    ∧ ((get_btrfs_subvolumes cenvC partsHome w0).1.contains ⟨"/home", "/@home"⟩) = false :=
  ⟨by decide, by decide,
   (C6_amended cenvC partsHome w0).1 ⟨"/", "/@"⟩ (by decide),
   by decide⟩

theorem err_frame (env : Env) (m : Msg) (st : World) :
    (err env m st).1.ledger = st.ledger
    ∧ (err env m st).1.optsList = st.optsList
    ∧ (err env m st).1.gsWrites = st.gsWrites
    ∧ (err env m st).1.tmp = st.tmp := by
  obtain ⟨h1, h2, h3, h4, _⟩ := errLoop_frame env (sortDesc st.ledger) st
  exact ⟨h1, h2, h3, h4⟩

theorem zfsDatasetLoop_frame (env : Env) (root : String) (ds : List ZDataset) :
    ∀ (st : World),
    (zfsDatasetLoop env root ds st).1.ledger = st.ledger
    ∧ (zfsDatasetLoop env root ds st).1.optsList = st.optsList
    ∧ (zfsDatasetLoop env root ds st).1.gsWrites = st.gsWrites
    ∧ (zfsDatasetLoop env root ds st).1.tmp = st.tmp := by
  induction ds with
  | nil => intro st; exact ⟨rfl, rfl, rfl, rfl⟩
  | cons d rest ih =>
    intro st
    unfold zfsDatasetLoop
    cases hc : zfsMountable d.canMount with
    | false => simpa [hc] using ih st
    | true =>
      cases hk : env.cmdOK ["zfs", "mount", d.zpool ++ "/" ++ d.dsName] with
      | false => simp [hc, hk]
      | true => simpa [hc, hk] using ih _

theorem mount_zfs_frame (env : Env) (root : String) (p : Partition) (st : World) :
    (mount_zfs env root p st).1.ledger = st.ledger
    ∧ (mount_zfs env root p st).1.optsList = st.optsList
    ∧ (mount_zfs env root p st).1.gsWrites = st.gsWrites
    ∧ (mount_zfs env root p st).1.tmp = st.tmp := by
  unfold mount_zfs
  cases hpool : env.zfsPoolInfo with
  | none => exact ⟨rfl, rfl, rfl, rfl⟩
  | some pools =>
    cases hemp : pools.isEmpty with
    | true => simp [hemp]
    | false =>
      simp only [hemp, Bool.false_eq_true, if_false]
      cases hlast : (pools.filter (fun zp => zp.mountpoint == p.mountPoint)).getLast? with
      | none => exact ⟨rfl, rfl, rfl, rfl⟩
      | some zp =>
        cases himp : env.cmdOK ["zpool", "import", "-N", "-R", root, zp.poolName] with
        | false => simp [himp]
        | true =>
          cases hE : ((env.zfsInfo.getD []).filter
              (fun zi => zi.mountpoint == p.mountPoint && zi.encrypted)).getLast?.isSome with
          | false =>
            cases hmpt : p.mountPoint == "/" with
            | false =>
              cases hmnt : env.cmdOK ["zfs", "mount", zp.poolName ++ "/" ++ zp.dsName] with
              | true => simp [himp, hE, hmpt, hmnt]
              | false => simp [himp, hE, hmpt, hmnt]
            | true =>
              cases hds : env.zfsDatasets with
              | none => simp [himp, hE, hmpt, hds]
              | some zfs =>
                cases hz : zfs.isEmpty with
                | true => simp [himp, hE, hmpt, hds, hz]
                | false =>
                  simp only [himp, hE, hmpt, hds, hz, if_true, Bool.false_eq_true, if_false,
                    Bool.false_and, Bool.and_false]
                  exact zfsDatasetLoop_frame env root _ _
          | true =>
            cases hunlock : env.cmdOK ["zfs", "load-key", zp.poolName] with
            | false => simp [himp, hE, hunlock]
            | true =>
              cases hmpt : p.mountPoint == "/" with
              | false =>
                cases hmnt : env.cmdOK ["zfs", "mount", zp.poolName ++ "/" ++ zp.dsName] with
                | true => simp [himp, hE, hunlock, hmpt, hmnt]
                | false => simp [himp, hE, hunlock, hmpt, hmnt]
              | true =>
                cases hds : env.zfsDatasets with
                | none => simp [himp, hE, hunlock, hmpt, hds]
                | some zfs =>
                  cases hz : zfs.isEmpty with
                  | true => simp [himp, hE, hunlock, hmpt, hds, hz]
                  | false =>
                    simp only [himp, hE, hunlock, hmpt, hds, hz, if_true, Bool.false_eq_true,
                      if_false, Bool.true_and, Bool.not_true, Bool.and_false]
                    exact zfsDatasetLoop_frame env root _ _

theorem createSubvolLoop_frame (env : Env) (setup : String) (l : List Subvol) :
    ∀ (created : List String) (st : World),
    (createSubvolLoop env setup l created st).1.ledger = st.ledger
    ∧ (createSubvolLoop env setup l created st).1.optsList = st.optsList
    ∧ (createSubvolLoop env setup l created st).1.gsWrites = st.gsWrites
    ∧ (createSubvolLoop env setup l created st).1.tmp = st.tmp
    ∧ (createSubvolLoop env setup l created st).1.mounted = st.mounted := by
  induction l with
  | nil => intro created st; exact ⟨rfl, rfl, rfl, rfl, rfl⟩
  | cons s rest ih =>
    intro created st
    unfold createSubvolLoop
    cases h1 : s.subvolume == "" with
    | true => simpa [h1] using ih created st
    | false =>
      simp only [h1, Bool.false_eq_true, if_false]
      split
      · exact ih created st
      · split
        · exact ih _ _
        · exact ⟨rfl, rfl, rfl, rfl, rfl⟩

theorem scratchCleanup_frame (env : Env) (setup : String) (st : World) :
    (scratchCleanup env setup st).1.optsList = st.optsList
    ∧ (scratchCleanup env setup st).1.gsWrites = st.gsWrites
    ∧ (scratchCleanup env setup st).1.tmp = st.tmp
    ∧ ((scratchCleanup env setup st).1.ledger = st.ledger.erase setup
        ∨ (scratchCleanup env setup st).1.ledger = st.ledger) := by
  unfold scratchCleanup
  by_cases h1 : normPath setup ∈ st.mounted
  · rw [if_pos h1]
    cases h2 : env.umountOK (normPath setup) with
    | false => simp [h2]
    | true =>
      simp only [h2, if_true]
      split
      · exact ⟨rfl, rfl, rfl, Or.inl rfl⟩
      · exact ⟨rfl, rfl, rfl, Or.inr rfl⟩
  · rw [if_neg h1]
    split
    · exact ⟨rfl, rfl, rfl, Or.inl rfl⟩
    · exact ⟨rfl, rfl, rfl, Or.inr rfl⟩

theorem subvolMountLoop_frame (env : Env) (root device fstype mos : String)
    (l : List Subvol) : ∀ (st : World),
    (subvolMountLoop env root device fstype mos l st).1.ledger = st.ledger
    ∧ (subvolMountLoop env root device fstype mos l st).1.tmp = st.tmp
    ∧ (∃ Δo, (subvolMountLoop env root device fstype mos l st).1.optsList = st.optsList ++ Δo)
    ∧ (∃ Δg, (subvolMountLoop env root device fstype mos l st).1.gsWrites = st.gsWrites ++ Δg
        ∧ ∀ kv ∈ Δg, kv.1 = "btrfsRootSubvolume") := by
  induction l with
  | nil =>
    intro st
    exact ⟨rfl, rfl, ⟨[], by simp [subvolMountLoop]⟩, ⟨[], by simp [subvolMountLoop]⟩⟩
  | cons s rest ih =>
    intro st
    unfold subvolMountLoop
    cases hroot : s.mountPoint == "/"
    · simp only [hroot, Bool.false_eq_true, if_false]
      cases hsub : s.subvolume == ""
      · simp only [hsub, Bool.false_eq_true, if_false]
        cases hm : env.mountOK device (root ++ s.mountPoint) fstype
            ("subvol=" ++ s.subvolume ++ "," ++ mos)
        · simp only [hm, Bool.false_eq_true, if_false]
          obtain ⟨e1, e2, e3, e4⟩ := err_frame env (Msg.subvolMountFailed s.subvolume)
            { st with log := st.log ++ [Cmd.mount device (root ++ s.mountPoint) fstype
                ("subvol=" ++ s.subvolume ++ "," ++ mos) false] }
          exact ⟨e1, e4, ⟨[], by rw [List.append_nil]; exact e2⟩,
            ⟨[], by rw [List.append_nil]; exact e3, fun kv hkv => absurd hkv (List.not_mem_nil kv)⟩⟩
        · simp only [hm, if_true]
          obtain ⟨h1, h2, ⟨Δo, h3⟩, ⟨Δg, h4, h5⟩⟩ := ih
            { st with mounted := normPath (root ++ s.mountPoint) :: st.mounted,
                      log := st.log ++ [Cmd.mount device (root ++ s.mountPoint) fstype
                        ("subvol=" ++ s.subvolume ++ "," ++ mos) true],
                      optsList := st.optsList ++ [⟨s.mountPoint, mos⟩] }
          refine ⟨h1, h2, ⟨⟨s.mountPoint, mos⟩ :: Δo, ?_⟩, ⟨Δg, h4, h5⟩⟩
          rw [h3]
          simp
      · simp only [hsub, if_true]
        obtain ⟨e1, e2, e3, e4⟩ := err_frame env Msg.subvolUndefined st
        exact ⟨e1, e4, ⟨[], by rw [List.append_nil]; exact e2⟩,
          ⟨[], by rw [List.append_nil]; exact e3, fun kv hkv => absurd hkv (List.not_mem_nil kv)⟩⟩
    · simp only [hroot, if_true]
      obtain ⟨h1, h2, ⟨Δo, h3⟩, ⟨Δg, h4, h5⟩⟩ := ih
        { st with gsWrites := st.gsWrites ++ [("btrfsRootSubvolume", GSVal.str s.subvolume)] }
      refine ⟨h1, h2, ⟨Δo, h3⟩, ⟨("btrfsRootSubvolume", GSVal.str s.subvolume) :: Δg, ?_, ?_⟩⟩
      · rw [h4]
        simp
      · intro kv hkv
        rcases List.mem_cons.mp hkv with h | h
        · rw [h]
        · exact h5 kv h

theorem get_btrfs_subvolumes_frame (env : Env) (parts : List Partition) (st : World) :
    (get_btrfs_subvolumes env parts st).2.ledger = st.ledger
    ∧ (get_btrfs_subvolumes env parts st).2.optsList = st.optsList
    ∧ (get_btrfs_subvolumes env parts st).2.tmp = st.tmp
    ∧ (get_btrfs_subvolumes env parts st).2.mounted = st.mounted
    ∧ (get_btrfs_subvolumes env parts st).2.log = st.log
    ∧ (∃ Δg, (get_btrfs_subvolumes env parts st).2.gsWrites = st.gsWrites ++ Δg
        ∧ ∀ kv ∈ Δg, kv.1 = "btrfsSwapSubvol") := by
  unfold get_btrfs_subvolumes
  cases hswap : env.swapIsFile
  · refine ⟨?_, ?_, ?_, ?_, ?_, ⟨[], ?_, ?_⟩⟩ <;> simp [hswap]
  · refine ⟨?_, ?_, ?_, ?_, ?_,
      ⟨[("btrfsSwapSubvol", GSVal.str (env.cfgBtrfsSwapSubvol.getD "/@swap"))], ?_, ?_⟩⟩ <;>
      simp [hswap]

theorem btrfsRootPhase2_frame (env : Env) (root device fstype mos : String)
    (subvols : List Subvol) (st : World) :
    (btrfsRootPhase2 env root device fstype mos subvols st).1.ledger = st.ledger
    ∧ (btrfsRootPhase2 env root device fstype mos subvols st).1.tmp = st.tmp
    ∧ (∃ Δo, (btrfsRootPhase2 env root device fstype mos subvols st).1.optsList =
        st.optsList ++ Δo)
    ∧ (∃ Δg, (btrfsRootPhase2 env root device fstype mos subvols st).1.gsWrites =
        st.gsWrites ++ Δg ∧ ∀ kv ∈ Δg, kv.1 = "btrfsRootSubvolume") := by
  unfold btrfsRootPhase2
  cases hfind : subvols.find? (fun s => s.mountPoint == "/") with
  | none =>
    obtain ⟨e1, e2, e3, e4⟩ := err_frame env Msg.rootSubvolMissing st
    exact ⟨e1, e4, ⟨[], by rw [List.append_nil]; exact e2⟩,
      ⟨[], by rw [List.append_nil]; exact e3, fun kv hkv => absurd hkv (List.not_mem_nil kv)⟩⟩
  | some root_sub =>
    cases hsub : root_sub.subvolume == "" with
    | true =>
      simp only [hsub, if_true]
      obtain ⟨e1, e2, e3, e4⟩ := err_frame env Msg.rootSubvolUndefined st
      exact ⟨e1, e4, ⟨[], by rw [List.append_nil]; exact e2⟩,
        ⟨[], by rw [List.append_nil]; exact e3, fun kv hkv => absurd hkv (List.not_mem_nil kv)⟩⟩
    | false =>
      simp only [hsub, Bool.false_eq_true, if_false]
      cases hm : env.mountOK device root fstype
          ("subvol=" ++ root_sub.subvolume ++ "," ++ mos) with
      | false =>
        simp only [hm, Bool.false_eq_true, if_false]
        obtain ⟨e1, e2, e3, e4⟩ := err_frame env (Msg.rootSubvolMountFailed device)
          { st with log := st.log ++ [Cmd.mount device root fstype
              ("subvol=" ++ root_sub.subvolume ++ "," ++ mos) false] }
        exact ⟨e1, e4, ⟨[], by rw [List.append_nil]; exact e2⟩,
          ⟨[], by rw [List.append_nil]; exact e3, fun kv hkv => absurd hkv (List.not_mem_nil kv)⟩⟩
      | true =>
        simp only [hm, if_true]
        obtain ⟨h1, h2, ⟨Δo, h3⟩, ⟨Δg, h4, h5⟩⟩ := subvolMountLoop_frame env root device fstype
          mos subvols
          { st with mounted := normPath root :: st.mounted,
                    log := st.log ++ [Cmd.mount device root fstype
                      ("subvol=" ++ root_sub.subvolume ++ "," ++ mos) true] }
        exact ⟨h1, h2, ⟨Δo, h3⟩, ⟨Δg, h4, h5⟩⟩

theorem btrfsScratchPhase_frame (env : Env) (device fstype : String)
    (subvols : List Subvol) (st : World) :
    ((btrfsScratchPhase env device fstype subvols st).1.ledger =
        (st.ledger ++ [env.setupDirName st.tmp]).erase (env.setupDirName st.tmp)
      ∨ (btrfsScratchPhase env device fstype subvols st).1.ledger =
        st.ledger ++ [env.setupDirName st.tmp])
    ∧ (btrfsScratchPhase env device fstype subvols st).1.tmp = st.tmp + 1
    ∧ (btrfsScratchPhase env device fstype subvols st).1.optsList = st.optsList
    ∧ (btrfsScratchPhase env device fstype subvols st).1.gsWrites = st.gsWrites := by
  unfold btrfsScratchPhase
  cases hscr : env.mountOK device (env.setupDirName st.tmp) fstype "defaults" with
  | false =>
    simp only [hscr, Bool.false_eq_true, if_false]
    exact ⟨Or.inr (err_frame env _ _).1, (err_frame env _ _).2.2.2,
      (err_frame env _ _).2.1, (err_frame env _ _).2.2.1⟩
  | true =>
    simp only [hscr, if_true]
    obtain ⟨c1, c2, c3, c4, c5⟩ := createSubvolLoop_frame env (env.setupDirName st.tmp)
      subvols []
      { st with tmp := st.tmp + 1,
                ledger := st.ledger ++ [env.setupDirName st.tmp],
                mounted := normPath (env.setupDirName st.tmp) :: st.mounted,
                log := st.log ++ [Cmd.mount device (env.setupDirName st.tmp) fstype "defaults" true] }
    obtain ⟨f1, f2, f3, f4⟩ := scratchCleanup_frame env (env.setupDirName st.tmp)
      (createSubvolLoop env (env.setupDirName st.tmp) subvols []
        { st with tmp := st.tmp + 1,
                  ledger := st.ledger ++ [env.setupDirName st.tmp],
                  mounted := normPath (env.setupDirName st.tmp) :: st.mounted,
                  log := st.log ++ [Cmd.mount device (env.setupDirName st.tmp) fstype "defaults" true] }).1
    refine ⟨?_, ?_, ?_, ?_⟩
    · rcases f4 with h | h
      · left; rw [h, c1]
      · right; rw [h, c1]
    · rw [f3, c4]
    · rw [f1, c2]
    · rw [f2, c3]

theorem btrfsAfterScratch_frame (env : Env) (root device fstype mos : String)
    (subvols : List Subvol) (pr : World × Option PErr) :
    (btrfsAfterScratch env root device fstype mos subvols pr).1.ledger = pr.1.ledger
    ∧ (btrfsAfterScratch env root device fstype mos subvols pr).1.tmp = pr.1.tmp
    ∧ (∃ Δo, (btrfsAfterScratch env root device fstype mos subvols pr).1.optsList =
        pr.1.optsList ++ Δo)
    ∧ (∃ Δg, (btrfsAfterScratch env root device fstype mos subvols pr).1.gsWrites =
        pr.1.gsWrites ++ Δg ∧ ∀ kv ∈ Δg, kv.1 = "btrfsRootSubvolume") := by
  rcases pr with ⟨st', e⟩
  cases e with
  | some e =>
    exact ⟨rfl, rfl, ⟨[], by simp [btrfsAfterScratch]⟩,
      ⟨[], by simp [btrfsAfterScratch], fun kv hkv => absurd hkv (List.not_mem_nil kv)⟩⟩
  | none => exact btrfsRootPhase2_frame env root device fstype mos subvols st'

theorem btrfsRootMount_frame (env : Env) (root : String) (p : Partition)
    (parts : List Partition) (device fstype mos : String) (st : World) :
    ((btrfsRootMount env root p parts device fstype mos st).1.ledger =
        (st.ledger ++ [env.setupDirName st.tmp]).erase (env.setupDirName st.tmp)
      ∨ (btrfsRootMount env root p parts device fstype mos st).1.ledger =
        st.ledger ++ [env.setupDirName st.tmp])
    ∧ (btrfsRootMount env root p parts device fstype mos st).1.tmp = st.tmp + 1
    ∧ (∃ Δo, (btrfsRootMount env root p parts device fstype mos st).1.optsList =
        st.optsList ++ Δo)
    ∧ (∃ Δg, (btrfsRootMount env root p parts device fstype mos st).1.gsWrites =
        st.gsWrites ++ Δg ∧ ∀ kv ∈ Δg, kv.1 ∈ btrfsKeys) := by
  obtain ⟨p1, p2, p3, p4, p5, ⟨Δg0, pg, pgk⟩⟩ := get_btrfs_subvolumes_frame env parts st
  have hdef : btrfsRootMount env root p parts device fstype mos st =
      btrfsAfterScratch env root device fstype mos (get_btrfs_subvolumes env parts st).1
        (btrfsScratchPhase env device fstype (get_btrfs_subvolumes env parts st).1
          { (get_btrfs_subvolumes env parts st).2 with
            gsWrites := (get_btrfs_subvolumes env parts st).2.gsWrites ++
              [("btrfsSubvolumes", GSVal.subvols (get_btrfs_subvolumes env parts st).1)] }) := rfl
  obtain ⟨s1, s2, s3, s4⟩ := btrfsScratchPhase_frame env device fstype
    (get_btrfs_subvolumes env parts st).1
    { (get_btrfs_subvolumes env parts st).2 with
      gsWrites := (get_btrfs_subvolumes env parts st).2.gsWrites ++
        [("btrfsSubvolumes", GSVal.subvols (get_btrfs_subvolumes env parts st).1)] }
  obtain ⟨a1, a2, ⟨Δo, a3⟩, ⟨Δg1, a4, a4k⟩⟩ := btrfsAfterScratch_frame env root device fstype
    mos (get_btrfs_subvolumes env parts st).1
    (btrfsScratchPhase env device fstype (get_btrfs_subvolumes env parts st).1
      { (get_btrfs_subvolumes env parts st).2 with
        gsWrites := (get_btrfs_subvolumes env parts st).2.gsWrites ++
          [("btrfsSubvolumes", GSVal.subvols (get_btrfs_subvolumes env parts st).1)] })
  have htmp : ({ (get_btrfs_subvolumes env parts st).2 with
      gsWrites := (get_btrfs_subvolumes env parts st).2.gsWrites ++
        [("btrfsSubvolumes", GSVal.subvols (get_btrfs_subvolumes env parts st).1)] } : World).tmp
      = st.tmp := p3
  have hledg : ({ (get_btrfs_subvolumes env parts st).2 with
      gsWrites := (get_btrfs_subvolumes env parts st).2.gsWrites ++
        [("btrfsSubvolumes", GSVal.subvols (get_btrfs_subvolumes env parts st).1)] } : World).ledger
      = st.ledger := p1
  have hopts : ({ (get_btrfs_subvolumes env parts st).2 with
      gsWrites := (get_btrfs_subvolumes env parts st).2.gsWrites ++
        [("btrfsSubvolumes", GSVal.subvols (get_btrfs_subvolumes env parts st).1)] } : World).optsList
      = st.optsList := p2
  have hgs : ({ (get_btrfs_subvolumes env parts st).2 with
      gsWrites := (get_btrfs_subvolumes env parts st).2.gsWrites ++
        [("btrfsSubvolumes", GSVal.subvols (get_btrfs_subvolumes env parts st).1)] } : World).gsWrites
      = st.gsWrites ++ (Δg0 ++
        [("btrfsSubvolumes", GSVal.subvols (get_btrfs_subvolumes env parts st).1)]) := by
    show (get_btrfs_subvolumes env parts st).2.gsWrites ++
        [("btrfsSubvolumes", GSVal.subvols (get_btrfs_subvolumes env parts st).1)] = _
    rw [pg, List.append_assoc]
  rw [htmp, hledg] at s1
  rw [htmp] at s2
  rw [hopts] at s3
  rw [hgs] at s4
  refine ⟨?_, ?_, ?_, ?_⟩
  · rw [hdef, a1]
    exact s1
  · rw [hdef, a2, s2]
  · refine ⟨Δo, ?_⟩
    rw [hdef, a3, s3]
  · refine ⟨(Δg0 ++ [("btrfsSubvolumes", GSVal.subvols (get_btrfs_subvolumes env parts st).1)]) ++ Δg1, ?_, ?_⟩
    · rw [hdef, a4, s4, List.append_assoc]
    · intro kv hkv
      rcases List.mem_append.mp hkv with h | h
      · rcases List.mem_append.mp h with h0 | h0
        · rw [pgk kv h0]; simp [btrfsKeys]
        · rcases List.mem_cons.mp h0 with h1 | h1
          · rw [h1]; simp [btrfsKeys]
          · exact absurd h1 (List.not_mem_nil kv)
      · rw [a4k kv h]; simp [btrfsKeys]

theorem tail_gsWrites (env : Env) (root : String) (p : Partition)
    (parts : List Partition) (mo : Option (List MountRule)) (efi : Option String)
    (fstype raw mp : String) (st : World) :
    ∃ Δg, (mount_partition_tail env root p parts mo efi fstype raw mp st).1.gsWrites =
      st.gsWrites ++ Δg ∧ ∀ kv ∈ Δg, kv.1 ∈ btrfsKeys := by
  unfold mount_partition_tail
  cases hz : fstype == "zfs" with
  | true =>
    simp only [hz, if_true]
    exact ⟨[], by rw [List.append_nil]; exact (mount_zfs_frame env root p st).2.2.1,
      fun kv hkv => absurd hkv (List.not_mem_nil kv)⟩
  | false =>
    simp only [hz, Bool.false_eq_true, if_false]
    cases hb : fstype == "btrfs" && raw == "/" with
    | false =>
      simp only [hb, Bool.not_false, if_true]
      cases hm : env.mountOK
          (match p.luksMapperName with
           | some n => "/dev/mapper/" ++ n
           | none => p.device)
          mp fstype (get_mount_options env fstype mo p efi) with
      | true =>
        simp only [hm, if_true]
        exact ⟨[], by rw [List.append_nil], fun kv hkv => absurd hkv (List.not_mem_nil kv)⟩
      | false =>
        simp only [hm, Bool.false_eq_true, if_false]
        exact ⟨[], by rw [List.append_nil]; exact (err_frame env _ _).2.2.1,
          fun kv hkv => absurd hkv (List.not_mem_nil kv)⟩
    | true =>
      simp only [hb, Bool.not_true, Bool.false_eq_true, if_false]
      obtain ⟨_, _, _, ⟨Δg, hg, hk⟩⟩ := btrfsRootMount_frame env root p parts
        (match p.luksMapperName with
         | some n => "/dev/mapper/" ++ n
         | none => p.device)
        fstype (get_mount_options env fstype mo p efi)
        { st with optsList := st.optsList ++
            [⟨raw, get_mount_options env fstype mo p efi⟩] }
      exact ⟨Δg, hg, hk⟩

theorem mount_partition_gsWrites (env : Env) (root : String) (p : Partition)
    (parts : List Partition) (mo : Option (List MountRule)) (efi : Option String)
    (st : World) :
    ∃ Δg, (mount_partition env root p parts mo efi st).1.gsWrites =
      st.gsWrites ++ Δg ∧ ∀ kv ∈ Δg, kv.1 ∈ btrfsKeys := by
  unfold mount_partition
  cases hmp : p.mountPoint == "" with
  | true =>
    simp only [hmp, if_true]
    exact ⟨[], by rw [List.append_nil], fun kv hkv => absurd hkv (List.not_mem_nil kv)⟩
  | false =>
    simp only [hmp, Bool.false_eq_true, if_false]
    cases hunf : lowerStr p.fs == "unformatted" with
    | true =>
      simp only [hunf, if_true]
      exact ⟨[], by rw [List.append_nil], fun kv hkv => absurd hkv (List.not_mem_nil kv)⟩
    | false =>
      simp only [hunf, Bool.false_eq_true, if_false]
      cases hleg : (["fat16", "fat32", "exfat", "ntfs", "ext2"] : List String).contains
          (lowerStr p.fs) with
      | true =>
        simp only [hleg, if_true]
        cases hgate : (!(p.mountPoint == "/boot" || p.mountPoint == "/boot/efi")
            || lowerStr p.fs == "ntfs" || lowerStr p.fs == "ext2"
            || (lowerStr p.fs == "exfat" && efiTruthy efi)) with
        | true =>
          simp only [hgate, if_true]
          exact ⟨[], by rw [List.append_nil]; exact (err_frame env _ _).2.2.1,
            fun kv hkv => absurd hkv (List.not_mem_nil kv)⟩
        | false =>
          simp only [hgate, Bool.false_eq_true, if_false]
          exact tail_gsWrites env root p parts mo efi _ _ _ _
      | false =>
        simp only [hleg, Bool.false_eq_true, if_false]
        exact tail_gsWrites env root p parts mo efi _ _ _ _

theorem mount_all_gsWrites (env : Env) (root : String) (parts : List Partition)
    (mo : Option (List MountRule)) (efi : Option String) (l : List Partition) :
    ∀ (st : World),
    ∃ Δg, (mount_all env root parts mo efi l st).1.gsWrites = st.gsWrites ++ Δg
      ∧ ∀ kv ∈ Δg, kv.1 ∈ btrfsKeys := by
  induction l with
  | nil =>
    intro st
    exact ⟨[], by simp [mount_all], fun kv hkv => absurd hkv (List.not_mem_nil kv)⟩
  | cons q rest ih =>
    intro st
    unfold mount_all
    obtain ⟨Δ1, h1, k1⟩ := mount_partition_gsWrites env root q parts mo efi st
    cases hres : mount_partition env root q parts mo efi st with
    | mk st' e =>
      rw [hres] at h1
      cases e with
      | none =>
        obtain ⟨Δ2, h2, k2⟩ := ih st'
        refine ⟨Δ1 ++ Δ2, ?_, ?_⟩
        · rw [h2, h1, List.append_assoc]
        · intro kv hkv
          rcases List.mem_append.mp hkv with h | h
          · exact k1 kv h
          · exact k2 kv h
      | some e => exact ⟨Δ1, h1, k1⟩

theorem enable_swap_gsWrites (env : Env) (devices : List String) : ∀ (st : World),
    (enable_swap_partition env devices st).gsWrites = st.gsWrites
    ∧ (enable_swap_partition env devices st).optsList = st.optsList
    ∧ (enable_swap_partition env devices st).ledger = st.ledger := by
  induction devices with
  | nil => intro st; exact ⟨rfl, rfl, rfl⟩
  | cons d rest ih =>
    intro st
    unfold enable_swap_partition
    cases hc : env.cmdOK ["swapon", d] with
    | false => simp [hc]
    | true => simpa [hc] using ih _

/-- C2 (amended): the three final publishes are all-or-nothing — on success
the install root mount point, the options ledger and the extra-mounts list
are all published, and on any non-successful run none of them is (every key
written in that case is one of the Btrfs keys, which can however reach
shared run state on failed runs, as the counterexample shows). -/
theorem C2_amended (env : Env) :
    ((run env).2 = RunOutcome.ok →
      "rootMountPoint" ∈ (run env).1.gsWrites.map Prod.fst
      ∧ "mountOptionsList" ∈ (run env).1.gsWrites.map Prod.fst
      ∧ "extraMounts" ∈ (run env).1.gsWrites.map Prod.fst)
    ∧ ((run env).2 ≠ RunOutcome.ok → ∀ kv ∈ (run env).1.gsWrites, kv.1 ∈ btrfsKeys)
    ∧ ((run env).2 ≠ RunOutcome.ok →
      "rootMountPoint" ∉ (run env).1.gsWrites.map Prod.fst
      ∧ "mountOptionsList" ∉ (run env).1.gsWrites.map Prod.fst
      ∧ "extraMounts" ∉ (run env).1.gsWrites.map Prod.fst) := by
  have hmain : ((run env).2 = RunOutcome.ok →
      "rootMountPoint" ∈ (run env).1.gsWrites.map Prod.fst
      ∧ "mountOptionsList" ∈ (run env).1.gsWrites.map Prod.fst
      ∧ "extraMounts" ∈ (run env).1.gsWrites.map Prod.fst)
      ∧ ((run env).2 ≠ RunOutcome.ok → ∀ kv ∈ (run env).1.gsWrites, kv.1 ∈ btrfsKeys) := by
    unfold run
    cases hemp : env.partitions.isEmpty with
    | true =>
      simp only [hemp, if_true]
      exact ⟨fun h => absurd h (by simp),
        fun _ kv hkv => absurd hkv (List.not_mem_nil kv)⟩
    | false =>
      simp only [hemp, Bool.false_eq_true, if_false]
      split
      · exact ⟨fun h => absurd h (by simp),
          fun _ kv hkv => absurd hkv (List.not_mem_nil kv)⟩
      · rename_i devs hdevs
        split
        · rename_i stP e heqP
          refine ⟨fun h => absurd h (by simp), fun _ kv hkv => ?_⟩
          obtain ⟨ΔP, hP, kP⟩ := mount_all_gsWrites env env.rootDirName env.partitions
            env.mountOptions
            (if env.firmwareType == "efi" then env.efiSystemPartition else none)
            (sortAscBy (fun p => p.mountPoint)
              (env.partitions.filter (fun p => !(p.mountPoint == ""))))
            (enable_swap_partition env
              (((env.partitions.filter (fun p => p.fs == "linuxswap" && p.claimed)).filter
                  (fun p => p.fsName == "linuxswap")).map (fun p => p.device) ++ devs) {})
          rw [heqP] at hP
          have hz : (enable_swap_partition env
              (((env.partitions.filter (fun p => p.fs == "linuxswap" && p.claimed)).filter
                  (fun p => p.fsName == "linuxswap")).map (fun p => p.device) ++ devs)
              {}).gsWrites = [] :=
            (enable_swap_gsWrites env _ {}).1
          rw [hz, List.nil_append] at hP
          have hkv' : kv ∈ (err env (Msg.rewrapped (strOfErr e)) stP).1.gsWrites := hkv
          rw [(err_frame env (Msg.rewrapped (strOfErr e)) stP).2.2.1, hP] at hkv'
          exact kP kv hkv'
        · rename_i stP heqP
          split
          · rename_i stE e heqE
            refine ⟨fun h => absurd h (by simp), fun _ kv hkv => ?_⟩
            obtain ⟨ΔP, hP, kP⟩ := mount_all_gsWrites env env.rootDirName env.partitions
              env.mountOptions
              (if env.firmwareType == "efi" then env.efiSystemPartition else none)
              (sortAscBy (fun p => p.mountPoint)
                (env.partitions.filter (fun p => !(p.mountPoint == ""))))
              (enable_swap_partition env
                (((env.partitions.filter (fun p => p.fs == "linuxswap" && p.claimed)).filter
                    (fun p => p.fsName == "linuxswap")).map (fun p => p.device) ++ devs) {})
            rw [heqP] at hP
            have hz : (enable_swap_partition env
                (((env.partitions.filter (fun p => p.fs == "linuxswap" && p.claimed)).filter
                    (fun p => p.fsName == "linuxswap")).map (fun p => p.device) ++ devs)
                {}).gsWrites = [] :=
              (enable_swap_gsWrites env _ {}).1
            rw [hz, List.nil_append] at hP
            obtain ⟨ΔE, hE, kE⟩ := mount_all_gsWrites env env.rootDirName env.partitions
              env.mountOptions
              (if env.firmwareType == "efi" then env.efiSystemPartition else none)
              (sortAscBy (fun p => p.mountPoint)
                ((if env.firmwareType == "efi" then env.extraMounts.getD []
                  else (env.extraMounts.getD []).filter (fun m => !m.efi)).filter
                  (fun p => !(p.mountPoint == "")))) stP
            rw [heqE] at hE
            have hkv' : kv ∈ (err env (Msg.rewrapped (strOfErr e)) stE).1.gsWrites := hkv
            rw [(err_frame env (Msg.rewrapped (strOfErr e)) stE).2.2.1, hE, hP] at hkv'
            rcases List.mem_append.mp hkv' with h | h
            · exact kP kv h
            · exact kE kv h
          · rename_i stE heqE
            refine ⟨fun _ => ?_, fun h => absurd rfl h⟩
            refine ⟨?_, ?_, ?_⟩ <;>
              · rw [List.map_append]
                exact List.mem_append_right _ (by simp)
  exact ⟨hmain.1, hmain.2, fun h => by
    have hall := hmain.2 h
    refine ⟨?_, ?_, ?_⟩ <;>
      · intro hmem
        obtain ⟨kv, hkv, hfst⟩ := List.mem_map.mp hmem
        have := hall kv hkv
        rw [hfst] at this
        simp [btrfsKeys] at this⟩

/-- Witness for C2 (amended): the all-success run `cenvS` ends `ok` and all
three final keys are published. -/
theorem C2_amended_witness :
    (run cenvS).2 = RunOutcome.ok
    ∧ "rootMountPoint" ∈ (run cenvS).1.gsWrites.map Prod.fst
    ∧ "mountOptionsList" ∈ (run cenvS).1.gsWrites.map Prod.fst
    ∧ "extraMounts" ∈ (run cenvS).1.gsWrites.map Prod.fst :=
  ⟨by decide, ((C2_amended cenvS).1 (by decide)).1,
   ((C2_amended cenvS).1 (by decide)).2.1,
   ((C2_amended cenvS).1 (by decide)).2.2⟩

theorem tail_ledger (env : Env) (root : String) (p : Partition)
    (parts : List Partition) (mo : Option (List MountRule)) (efi : Option String)
    (fstype raw mp : String) (st : World) :
    ((mount_partition_tail env root p parts mo efi fstype raw mp st).1.ledger = st.ledger
      ∨ (mount_partition_tail env root p parts mo efi fstype raw mp st).1.ledger =
          (st.ledger ++ [env.setupDirName st.tmp]).erase (env.setupDirName st.tmp)
      ∨ (mount_partition_tail env root p parts mo efi fstype raw mp st).1.ledger =
          st.ledger ++ [env.setupDirName st.tmp])
    ∧ ((fstype == "zfs") = true →
        (mount_partition_tail env root p parts mo efi fstype raw mp st).1.ledger = st.ledger) := by
  unfold mount_partition_tail
  cases hz : fstype == "zfs" with
  | true =>
    simp only [hz, if_true]
    exact ⟨Or.inl (mount_zfs_frame env root p st).1, fun _ => (mount_zfs_frame env root p st).1⟩
  | false =>
    simp only [hz, Bool.false_eq_true, if_false]
    refine ⟨?_, fun h => absurd h (by simp [hz])⟩
    cases hb : fstype == "btrfs" && raw == "/" with
    | false =>
      simp only [hb, Bool.not_false, if_true]
      cases hm : env.mountOK
          (match p.luksMapperName with
           | some n => "/dev/mapper/" ++ n
           | none => p.device)
          mp fstype (get_mount_options env fstype mo p efi) with
      | true => simp [hm]
      | false =>
        simp only [hm, Bool.false_eq_true, if_false]
        exact Or.inl (err_frame env _ _).1
    | true =>
      simp only [hb, Bool.not_true, Bool.false_eq_true, if_false]
      rcases (btrfsRootMount_frame env root p parts
        (match p.luksMapperName with
         | some n => "/dev/mapper/" ++ n
         | none => p.device)
        fstype (get_mount_options env fstype mo p efi)
        { st with optsList := st.optsList ++
            [⟨raw, get_mount_options env fstype mo p efi⟩] }).1 with h | h
      · exact Or.inr (Or.inl h)
      · exact Or.inr (Or.inr h)

theorem tail_optsList (env : Env) (root : String) (p : Partition)
    (parts : List Partition) (mo : Option (List MountRule)) (efi : Option String)
    (fstype raw mp : String) (st : World) :
    ((fstype == "zfs") = true →
      (mount_partition_tail env root p parts mo efi fstype raw mp st).1.optsList = st.optsList)
    ∧ ((fstype == "zfs") = false → (fstype == "btrfs" && raw == "/") = false →
      (mount_partition_tail env root p parts mo efi fstype raw mp st).1.optsList =
        st.optsList ++ [⟨raw, get_mount_options env fstype mo p efi⟩])
    ∧ ((fstype == "zfs") = false → (fstype == "btrfs" && raw == "/") = true →
      ∃ rest, (mount_partition_tail env root p parts mo efi fstype raw mp st).1.optsList =
        st.optsList ++ [⟨raw, get_mount_options env fstype mo p efi⟩] ++ rest) := by
  unfold mount_partition_tail
  cases hz : fstype == "zfs" with
  | true =>
    simp only [hz, if_true]
    exact ⟨fun _ => (mount_zfs_frame env root p st).2.1,
      fun h => absurd h (by simp [hz]), fun h => absurd h (by simp [hz])⟩
  | false =>
    simp only [hz, Bool.false_eq_true, if_false]
    refine ⟨fun h => absurd h (by simp [hz]), fun _ hb => ?_, fun _ hb => ?_⟩
    · simp only [hb, Bool.not_false, if_true]
      cases hm : env.mountOK
          (match p.luksMapperName with
           | some n => "/dev/mapper/" ++ n
           | none => p.device)
          mp fstype (get_mount_options env fstype mo p efi) with
      | true => simp only [hm, if_true]
      | false =>
        simp only [hm, Bool.false_eq_true, if_false]
        exact (err_frame env _ _).2.1
    · simp only [hb, Bool.not_true, Bool.false_eq_true, if_false]
      obtain ⟨_, _, ⟨Δo, ho⟩, _⟩ := btrfsRootMount_frame env root p parts
        (match p.luksMapperName with
         | some n => "/dev/mapper/" ++ n
         | none => p.device)
        fstype (get_mount_options env fstype mo p efi)
        { st with optsList := st.optsList ++
            [⟨raw, get_mount_options env fstype mo p efi⟩] }
      exact ⟨Δo, by rw [ho, List.append_assoc]⟩

/-- C3 (amended): for every partition with a non-empty mount point,
`mount_partition` appends the target path to the ledger immediately at
entry, before any validation or mount attempt — the final ledger always
extends the input ledger with the target (plus possibly a leftover scratch
entry); in particular an unformatted-skipped partition leaves exactly the
new entry and changes nothing else, and a ZFS-delegated partition also
leaves its entry although the ZFS protocol manages mounts itself. -/
theorem C3_amended (env : Env) (root : String) (p : Partition)
    (parts : List Partition) (mo : Option (List MountRule)) (efi : Option String)
    (st : World)
    (hmp : (p.mountPoint == "") = false)
    (hfresh : env.setupDirName st.tmp ∉ st.ledger ++ [root ++ p.mountPoint]) :
    (∃ rest, (mount_partition env root p parts mo efi st).1.ledger =
        st.ledger ++ [root ++ p.mountPoint] ++ rest)
    ∧ (lowerStr p.fs = "unformatted" →
        mount_partition env root p parts mo efi st =
          ({ st with ledger := st.ledger ++ [root ++ p.mountPoint] }, none))
    ∧ (lowerStr p.fs = "zfs" →
        (mount_partition env root p parts mo efi st).1.ledger =
          st.ledger ++ [root ++ p.mountPoint]) := by
  have herase : (st.ledger ++ [root ++ p.mountPoint] ++ [env.setupDirName st.tmp]).erase
      (env.setupDirName st.tmp) = st.ledger ++ [root ++ p.mountPoint] := by
    rw [List.erase_append_right _ hfresh]
    simp
  refine ⟨?_, ?_, ?_⟩
  · unfold mount_partition
    simp only [hmp, Bool.false_eq_true, if_false]
    cases hunf : lowerStr p.fs == "unformatted" with
    | true =>
      simp only [hunf, if_true]
      exact ⟨[], by simp⟩
    | false =>
      simp only [hunf, Bool.false_eq_true, if_false]
      cases hleg : (["fat16", "fat32", "exfat", "ntfs", "ext2"] : List String).contains
          (lowerStr p.fs) with
      | true =>
        simp only [hleg, if_true]
        cases hgate : (!(p.mountPoint == "/boot" || p.mountPoint == "/boot/efi")
            || lowerStr p.fs == "ntfs" || lowerStr p.fs == "ext2"
            || (lowerStr p.fs == "exfat" && efiTruthy efi)) with
        | true =>
          simp only [hgate, if_true]
          exact ⟨[], by rw [List.append_nil]; exact (err_frame env _ _).1⟩
        | false =>
          simp only [hgate, Bool.false_eq_true, if_false]
          rcases (tail_ledger env root p parts mo efi
            (if !(lowerStr p.fs == "exfat") then "vfat" else "exfat")
            p.mountPoint (root ++ p.mountPoint)
            { st with ledger := st.ledger ++ [root ++ p.mountPoint] }).1 with h | h | h
          · exact ⟨[], by rw [List.append_nil]; exact h⟩
          · exact ⟨[], by rw [List.append_nil]; rw [h]; exact herase⟩
          · exact ⟨[env.setupDirName st.tmp], h⟩
      | false =>
        simp only [hleg, Bool.false_eq_true, if_false]
        rcases (tail_ledger env root p parts mo efi (lowerStr p.fs)
          p.mountPoint (root ++ p.mountPoint)
          { st with ledger := st.ledger ++ [root ++ p.mountPoint] }).1 with h | h | h
        · exact ⟨[], by rw [List.append_nil]; exact h⟩
        · exact ⟨[], by rw [List.append_nil]; rw [h]; exact herase⟩
        · exact ⟨[env.setupDirName st.tmp], h⟩
  · intro h
    have hunf : (lowerStr p.fs == "unformatted") = true := beq_iff_eq.mpr h
    unfold mount_partition
    simp only [hmp, Bool.false_eq_true, if_false, hunf, if_true]
  · intro h
    have hunf : (lowerStr p.fs == "unformatted") = false := by rw [h]; decide
    have hleg : ((["fat16", "fat32", "exfat", "ntfs", "ext2"] : List String).contains
        (lowerStr p.fs)) = false := by rw [h]; decide
    have hzfs : (lowerStr p.fs == "zfs") = true := beq_iff_eq.mpr h
    unfold mount_partition
    simp only [hmp, Bool.false_eq_true, if_false, hunf, hleg]
    exact (tail_ledger env root p parts mo efi (lowerStr p.fs)
      p.mountPoint (root ++ p.mountPoint)
      { st with ledger := st.ledger ++ [root ++ p.mountPoint] }).2 hzfs

/-- Witness for C3 (amended) at the unformatted partition `punf` and the
zfs partition `pzfs`. -/
theorem C3_amended_witness :
    (punf.mountPoint == "") = false
    ∧ cenv3.setupDirName w0.tmp ∉ w0.ledger ++ ["/rt" ++ punf.mountPoint]
    ∧ mount_partition cenv3 "/rt" punf [punf] none none w0 =
        ({ w0 with ledger := w0.ledger ++ ["/rt" ++ punf.mountPoint] }, none)
    ∧ (mount_partition cenv3 "/rt" pzfs [pzfs] none none w0).1.ledger =
        w0.ledger ++ ["/rt" ++ pzfs.mountPoint] :=
  ⟨by decide, by decide,
   (C3_amended cenv3 "/rt" punf [punf] none none w0 (by decide) (by decide)).2.1 rfl,
   (C3_amended cenv3 "/rt" pzfs [pzfs] none none w0 (by decide) (by decide)).2.2 rfl⟩

theorem succMountTargets_append (a b : List Cmd) :
    succMountTargets (a ++ b) = succMountTargets a ++ succMountTargets b := by
  simp [succMountTargets, List.filterMap_append]

theorem err_log (env : Env) (m : Msg) (st : World) :
    ∃ Δ, (err env m st).1.log = st.log ++ Δ := by
  obtain ⟨_, _, _, _, Δ, h, _⟩ := errLoop_frame env (sortDesc st.ledger) st
  exact ⟨Δ, h⟩

theorem createSubvolLoop_log (env : Env) (setup : String) (l : List Subvol) :
    ∀ (created : List String) (st : World),
    ∃ Δ, (createSubvolLoop env setup l created st).1.log = st.log ++ Δ := by
  induction l with
  | nil => intro created st; exact ⟨[], by simp [createSubvolLoop]⟩
  | cons s rest ih =>
    intro created st
    unfold createSubvolLoop
    cases h1 : s.subvolume == "" with
    | true =>
      simp only [h1, if_true]
      exact ih created st
    | false =>
      simp only [h1, Bool.false_eq_true, if_false]
      split
      · exact ih created st
      · split
        · obtain ⟨Δ, hΔ⟩ := ih ((setup ++ s.subvolume) :: created)
            { st with log := st.log ++ [Cmd.cmd ["btrfs", "subvolume", "create",
                setup ++ s.subvolume] true] }
          exact ⟨[Cmd.cmd ["btrfs", "subvolume", "create", setup ++ s.subvolume] true] ++ Δ,
            by rw [hΔ]; simp⟩
        · exact ⟨[Cmd.cmd ["btrfs", "subvolume", "create", setup ++ s.subvolume] false], rfl⟩

theorem scratchCleanup_log (env : Env) (setup : String) (st : World) :
    ∃ Δ, (scratchCleanup env setup st).1.log = st.log ++ Δ := by
  unfold scratchCleanup
  by_cases h1 : normPath setup ∈ st.mounted
  · rw [if_pos h1]
    cases h2 : env.umountOK (normPath setup) with
    | false =>
      simp only [h2, Bool.false_eq_true, if_false]
      exact ⟨[Cmd.umount setup false], rfl⟩
    | true =>
      simp only [h2, if_true]
      split
      · exact ⟨[Cmd.umount setup true], rfl⟩
      · exact ⟨[Cmd.umount setup true], rfl⟩
  · rw [if_neg h1]
    split
    · exact ⟨[], by simp⟩
    · exact ⟨[], by simp⟩

theorem btrfsScratchPhase_log (env : Env) (device fstype : String)
    (subvols : List Subvol) (st : World) :
    ∃ Δ, (btrfsScratchPhase env device fstype subvols st).1.log = st.log ++ Δ := by
  unfold btrfsScratchPhase
  cases hscr : env.mountOK device (env.setupDirName st.tmp) fstype "defaults" with
  | false =>
    simp only [hscr, Bool.false_eq_true, if_false]
    obtain ⟨Δ, hΔ⟩ := err_log env (Msg.cannotMountScratch device)
      { st with tmp := st.tmp + 1,
                ledger := st.ledger ++ [env.setupDirName st.tmp],
                log := st.log ++ [Cmd.mount device (env.setupDirName st.tmp) fstype
                  "defaults" false] }
    exact ⟨[Cmd.mount device (env.setupDirName st.tmp) fstype "defaults" false] ++ Δ,
      by rw [hΔ]; simp⟩
  | true =>
    simp only [hscr, if_true]
    obtain ⟨Δc, hc⟩ := createSubvolLoop_log env (env.setupDirName st.tmp) subvols []
      { st with tmp := st.tmp + 1,
                ledger := st.ledger ++ [env.setupDirName st.tmp],
                mounted := normPath (env.setupDirName st.tmp) :: st.mounted,
                log := st.log ++ [Cmd.mount device (env.setupDirName st.tmp) fstype
                  "defaults" true] }
    obtain ⟨Δf, hf⟩ := scratchCleanup_log env (env.setupDirName st.tmp)
      (createSubvolLoop env (env.setupDirName st.tmp) subvols []
        { st with tmp := st.tmp + 1,
                  ledger := st.ledger ++ [env.setupDirName st.tmp],
                  mounted := normPath (env.setupDirName st.tmp) :: st.mounted,
                  log := st.log ++ [Cmd.mount device (env.setupDirName st.tmp) fstype
                    "defaults" true] }).1
    exact ⟨[Cmd.mount device (env.setupDirName st.tmp) fstype "defaults" true] ++ Δc ++ Δf,
      by rw [hf, hc]; simp⟩

theorem subvolMountLoop_succ (env : Env) (root device fstype mos : String)
    (l : List Subvol) : ∀ (st : World),
    ∃ Δo Δl, (subvolMountLoop env root device fstype mos l st).1.optsList = st.optsList ++ Δo
      ∧ (subvolMountLoop env root device fstype mos l st).1.log = st.log ++ Δl
      ∧ ∀ e ∈ Δo, root ++ e.mountpoint ∈ succMountTargets Δl := by
  induction l with
  | nil =>
    intro st
    exact ⟨[], [], by simp [subvolMountLoop], by simp [subvolMountLoop],
      fun e he => absurd he (List.not_mem_nil e)⟩
  | cons s rest ih =>
    intro st
    unfold subvolMountLoop
    cases hroot : s.mountPoint == "/" with
    | true =>
      simp only [hroot, if_true]
      exact ih _
    | false =>
      simp only [hroot, Bool.false_eq_true, if_false]
      cases hsub : s.subvolume == "" with
      | true =>
        simp only [hsub, if_true]
        obtain ⟨Δ, h5⟩ := err_log env Msg.subvolUndefined st
        exact ⟨[], Δ, by rw [List.append_nil]; exact (err_frame env Msg.subvolUndefined st).2.1, h5,
          fun e he => absurd he (List.not_mem_nil e)⟩
      | false =>
        simp only [hsub, Bool.false_eq_true, if_false]
        cases hm : env.mountOK device (root ++ s.mountPoint) fstype
            ("subvol=" ++ s.subvolume ++ "," ++ mos) with
        | false =>
          simp only [hm, Bool.false_eq_true, if_false]
          obtain ⟨Δ, h5⟩ := err_log env (Msg.subvolMountFailed s.subvolume)
            { st with log := st.log ++ [Cmd.mount device (root ++ s.mountPoint) fstype
                ("subvol=" ++ s.subvolume ++ "," ++ mos) false] }
          refine ⟨[], [Cmd.mount device (root ++ s.mountPoint) fstype
              ("subvol=" ++ s.subvolume ++ "," ++ mos) false] ++ Δ,
            by rw [List.append_nil]; exact (err_frame env (Msg.subvolMountFailed s.subvolume) _).2.1,
            by rw [h5]; simp,
            fun e he => absurd he (List.not_mem_nil e)⟩
        | true =>
          simp only [hm, if_true]
          obtain ⟨Δo, Δl, h1, h2, h3⟩ := ih
            { st with mounted := normPath (root ++ s.mountPoint) :: st.mounted,
                      log := st.log ++ [Cmd.mount device (root ++ s.mountPoint) fstype
                        ("subvol=" ++ s.subvolume ++ "," ++ mos) true],
                      optsList := st.optsList ++ [⟨s.mountPoint, mos⟩] }
          refine ⟨⟨s.mountPoint, mos⟩ :: Δo,
            Cmd.mount device (root ++ s.mountPoint) fstype
              ("subvol=" ++ s.subvolume ++ "," ++ mos) true :: Δl, ?_, ?_, ?_⟩
          · rw [h1]; simp
          · rw [h2]; simp
          · intro e he
            rcases List.mem_cons.mp he with h | h
            · rw [h]
              simp [succMountTargets]
            · have hmem := h3 e h
              simp only [succMountTargets, List.filterMap_cons] at hmem ⊢
              exact List.mem_cons_of_mem _ hmem

theorem btrfsRootPhase2_succ (env : Env) (root device fstype mos : String)
    (subvols : List Subvol) (st : World) :
    ∃ Δo Δl, (btrfsRootPhase2 env root device fstype mos subvols st).1.optsList =
        st.optsList ++ Δo
      ∧ (btrfsRootPhase2 env root device fstype mos subvols st).1.log = st.log ++ Δl
      ∧ ∀ e ∈ Δo, root ++ e.mountpoint ∈ succMountTargets Δl := by
  unfold btrfsRootPhase2
  cases hfind : subvols.find? (fun s => s.mountPoint == "/") with
  | none =>
    obtain ⟨Δ, h5⟩ := err_log env Msg.rootSubvolMissing st
    exact ⟨[], Δ, by rw [List.append_nil]; exact (err_frame env Msg.rootSubvolMissing st).2.1, h5,
      fun e he => absurd he (List.not_mem_nil e)⟩
  | some root_sub =>
    cases hsub : root_sub.subvolume == "" with
    | true =>
      simp only [hsub, if_true]
      obtain ⟨Δ, h5⟩ := err_log env Msg.rootSubvolUndefined st
      exact ⟨[], Δ, by rw [List.append_nil]; exact (err_frame env Msg.rootSubvolUndefined st).2.1, h5,
        fun e he => absurd he (List.not_mem_nil e)⟩
    | false =>
      simp only [hsub, Bool.false_eq_true, if_false]
      cases hm : env.mountOK device root fstype
          ("subvol=" ++ root_sub.subvolume ++ "," ++ mos) with
      | false =>
        simp only [hm, Bool.false_eq_true, if_false]
        obtain ⟨Δ, h5⟩ := err_log env (Msg.rootSubvolMountFailed device)
          { st with log := st.log ++ [Cmd.mount device root fstype
              ("subvol=" ++ root_sub.subvolume ++ "," ++ mos) false] }
        refine ⟨[], [Cmd.mount device root fstype
            ("subvol=" ++ root_sub.subvolume ++ "," ++ mos) false] ++ Δ,
          by rw [List.append_nil]; exact (err_frame env (Msg.rootSubvolMountFailed device) _).2.1,
          by rw [h5]; simp,
          fun e he => absurd he (List.not_mem_nil e)⟩
      | true =>
        simp only [hm, if_true]
        obtain ⟨Δo, Δl, h1, h2, h3⟩ := subvolMountLoop_succ env root device fstype mos subvols
          { st with mounted := normPath root :: st.mounted,
                    log := st.log ++ [Cmd.mount device root fstype
                      ("subvol=" ++ root_sub.subvolume ++ "," ++ mos) true] }
        refine ⟨Δo, Cmd.mount device root fstype
            ("subvol=" ++ root_sub.subvolume ++ "," ++ mos) true :: Δl, h1,
          by rw [h2]; simp, ?_⟩
        intro e he
        have hmem := h3 e he
        simp only [succMountTargets, List.filterMap_cons] at hmem ⊢
        exact List.mem_cons_of_mem _ hmem

theorem btrfsAfterScratch_succ (env : Env) (root device fstype mos : String)
    (subvols : List Subvol) (pr : World × Option PErr) :
    ∃ Δo Δl, (btrfsAfterScratch env root device fstype mos subvols pr).1.optsList =
        pr.1.optsList ++ Δo
      ∧ (btrfsAfterScratch env root device fstype mos subvols pr).1.log = pr.1.log ++ Δl
      ∧ ∀ e ∈ Δo, root ++ e.mountpoint ∈ succMountTargets Δl := by
  rcases pr with ⟨sw, se⟩
  cases se with
  | some e =>
    exact ⟨[], [], by simp [btrfsAfterScratch], by simp [btrfsAfterScratch],
      fun e he => absurd he (List.not_mem_nil e)⟩
  | none => exact btrfsRootPhase2_succ env root device fstype mos subvols sw

theorem btrfsRootMount_succ (env : Env) (root : String) (p : Partition)
    (parts : List Partition) (device fstype mos : String) (st : World) :
    ∃ Δo Δl, (btrfsRootMount env root p parts device fstype mos st).1.optsList =
        st.optsList ++ Δo
      ∧ (btrfsRootMount env root p parts device fstype mos st).1.log = st.log ++ Δl
      ∧ ∀ e ∈ Δo, root ++ e.mountpoint ∈ succMountTargets Δl := by
  obtain ⟨p1, p2, p3, p4, p5, ⟨Δg0, pg, pgk⟩⟩ := get_btrfs_subvolumes_frame env parts st
  have hdef : btrfsRootMount env root p parts device fstype mos st =
      btrfsAfterScratch env root device fstype mos (get_btrfs_subvolumes env parts st).1
        (btrfsScratchPhase env device fstype (get_btrfs_subvolumes env parts st).1
          { (get_btrfs_subvolumes env parts st).2 with
            gsWrites := (get_btrfs_subvolumes env parts st).2.gsWrites ++
              [("btrfsSubvolumes", GSVal.subvols (get_btrfs_subvolumes env parts st).1)] }) := rfl
  obtain ⟨_, _, s3, _⟩ := btrfsScratchPhase_frame env device fstype
    (get_btrfs_subvolumes env parts st).1
    { (get_btrfs_subvolumes env parts st).2 with
      gsWrites := (get_btrfs_subvolumes env parts st).2.gsWrites ++
        [("btrfsSubvolumes", GSVal.subvols (get_btrfs_subvolumes env parts st).1)] }
  obtain ⟨Δs, hs⟩ := btrfsScratchPhase_log env device fstype
    (get_btrfs_subvolumes env parts st).1
    { (get_btrfs_subvolumes env parts st).2 with
      gsWrites := (get_btrfs_subvolumes env parts st).2.gsWrites ++
        [("btrfsSubvolumes", GSVal.subvols (get_btrfs_subvolumes env parts st).1)] }
  obtain ⟨Δo, Δl, a1, a2, a3⟩ := btrfsAfterScratch_succ env root device fstype mos
    (get_btrfs_subvolumes env parts st).1
    (btrfsScratchPhase env device fstype (get_btrfs_subvolumes env parts st).1
      { (get_btrfs_subvolumes env parts st).2 with
        gsWrites := (get_btrfs_subvolumes env parts st).2.gsWrites ++
          [("btrfsSubvolumes", GSVal.subvols (get_btrfs_subvolumes env parts st).1)] })
  have hopts : (btrfsScratchPhase env device fstype (get_btrfs_subvolumes env parts st).1
      { (get_btrfs_subvolumes env parts st).2 with
        gsWrites := (get_btrfs_subvolumes env parts st).2.gsWrites ++
          [("btrfsSubvolumes", GSVal.subvols (get_btrfs_subvolumes env parts st).1)]
      }).1.optsList = st.optsList := by
    rw [s3]
    exact p2
  have hlog : (btrfsScratchPhase env device fstype (get_btrfs_subvolumes env parts st).1
      { (get_btrfs_subvolumes env parts st).2 with
        gsWrites := (get_btrfs_subvolumes env parts st).2.gsWrites ++
          [("btrfsSubvolumes", GSVal.subvols (get_btrfs_subvolumes env parts st).1)]
      }).1.log = st.log ++ Δs := by
    rw [hs]
    exact congrArg (fun x => x ++ Δs) p5
  refine ⟨Δo, Δs ++ Δl, ?_, ?_, ?_⟩
  · rw [hdef, a1, hopts]
  · rw [hdef, a2, hlog, List.append_assoc]
  · intro e he
    rw [succMountTargets_append]
    exact List.mem_append_right _ (a3 e he)

theorem tail_btrfs_succ (env : Env) (root : String) (p : Partition)
    (parts : List Partition) (mo : Option (List MountRule)) (efi : Option String)
    (fstype raw mp : String) (st : World)
    (hz : (fstype == "zfs") = false)
    (hb : (fstype == "btrfs" && raw == "/") = true) :
    ∃ rest Δl, (mount_partition_tail env root p parts mo efi fstype raw mp st).1.optsList =
        st.optsList ++ [⟨raw, get_mount_options env fstype mo p efi⟩] ++ rest
      ∧ (mount_partition_tail env root p parts mo efi fstype raw mp st).1.log = st.log ++ Δl
      ∧ ∀ e ∈ rest, root ++ e.mountpoint ∈ succMountTargets Δl := by
  unfold mount_partition_tail
  simp only [hz, hb, Bool.false_eq_true, if_false, Bool.not_true]
  obtain ⟨Δo, Δl, h1, h2, h3⟩ := btrfsRootMount_succ env root p parts
    (match p.luksMapperName with
     | some n => "/dev/mapper/" ++ n
     | none => p.device)
    fstype (get_mount_options env fstype mo p efi)
    { st with optsList := st.optsList ++ [⟨raw, get_mount_options env fstype mo p efi⟩] }
  exact ⟨Δo, Δl, by rw [h1, List.append_assoc], h2, h3⟩

/-- C5 (amended): the options list gains its entry at option-resolution
time, before the mount attempt — for a direct-mount partition the entry is
appended whether or not the subsequent mount succeeds, for the Btrfs root
the entry is appended before the two-phase protocol and every further entry
belongs to a mount point the executor successfully mounted during this call
(subvolume entries arise only from successful mounts), and a ZFS-delegated
partition contributes no entry. -/
theorem C5_amended (env : Env) (root : String) (p : Partition)
    (parts : List Partition) (mo : Option (List MountRule)) (efi : Option String)
    (st : World) :
    ((p.mountPoint == "") = false → lowerStr p.fs = "zfs" →
      (mount_partition env root p parts mo efi st).1.optsList = st.optsList)
    ∧ ((p.mountPoint == "") = false →
       (lowerStr p.fs == "unformatted") = false →
       fatGate (lowerStr p.fs) p.mountPoint efi = true →
       (normFat (lowerStr p.fs) == "zfs") = false →
       (normFat (lowerStr p.fs) == "btrfs" && p.mountPoint == "/") = false →
      (mount_partition env root p parts mo efi st).1.optsList = st.optsList ++
        [⟨p.mountPoint, get_mount_options env (normFat (lowerStr p.fs)) mo p efi⟩])
    ∧ ((p.mountPoint == "") = false →
       lowerStr p.fs = "btrfs" → p.mountPoint = "/" →
      ∃ rest Δl, (mount_partition env root p parts mo efi st).1.optsList = st.optsList ++
          [⟨"/", get_mount_options env "btrfs" mo p efi⟩] ++ rest
        ∧ (mount_partition env root p parts mo efi st).1.log = st.log ++ Δl
        ∧ ∀ e ∈ rest, root ++ e.mountpoint ∈ succMountTargets Δl) := by
  refine ⟨?_, ?_, ?_⟩
  · intro hmp h
    have hunf : (lowerStr p.fs == "unformatted") = false := by rw [h]; decide
    have hleg : ((["fat16", "fat32", "exfat", "ntfs", "ext2"] : List String).contains
        (lowerStr p.fs)) = false := by rw [h]; decide
    have hzfs : (lowerStr p.fs == "zfs") = true := beq_iff_eq.mpr h
    unfold mount_partition
    simp only [hmp, Bool.false_eq_true, if_false, hunf, hleg]
    exact (tail_optsList env root p parts mo efi (lowerStr p.fs)
      p.mountPoint (root ++ p.mountPoint)
      { st with ledger := st.ledger ++ [root ++ p.mountPoint] }).1 hzfs
  · intro hmp hunf hfat hz hb
    unfold mount_partition
    simp only [hmp, Bool.false_eq_true, if_false, hunf]
    cases hleg : (["fat16", "fat32", "exfat", "ntfs", "ext2"] : List String).contains
        (lowerStr p.fs) with
    | false =>
      simp only [hleg, Bool.false_eq_true, if_false]
      have hnf : normFat (lowerStr p.fs) = lowerStr p.fs := by
        unfold normFat legacyFsKinds
        rw [hleg]
        simp
      rw [hnf] at hz hb
      rw [hnf]
      exact (tail_optsList env root p parts mo efi (lowerStr p.fs)
        p.mountPoint (root ++ p.mountPoint)
        { st with ledger := st.ledger ++ [root ++ p.mountPoint] }).2.1 hz hb
    | true =>
      simp only [hleg, if_true]
      have hgate : (!(p.mountPoint == "/boot" || p.mountPoint == "/boot/efi")
          || lowerStr p.fs == "ntfs" || lowerStr p.fs == "ext2"
          || (lowerStr p.fs == "exfat" && efiTruthy efi)) = false := by
        unfold fatGate legacyFsKinds at hfat
        rw [hleg] at hfat
        simp only [Bool.not_true, Bool.false_or, Bool.and_eq_true] at hfat
        obtain ⟨⟨⟨h1, h2⟩, h3⟩, h4⟩ := hfat
        simp only [Bool.or_eq_false_iff]
        refine ⟨⟨⟨?_, ?_⟩, ?_⟩, ?_⟩
        · rw [h1]; rfl
        · cases hx : lowerStr p.fs == "ntfs"
          · rfl
          · rw [hx] at h2; exact absurd h2 (by decide)
        · cases hx : lowerStr p.fs == "ext2"
          · rfl
          · rw [hx] at h3; exact absurd h3 (by decide)
        · cases hx : (lowerStr p.fs == "exfat" && efiTruthy efi)
          · rfl
          · rw [hx] at h4; exact absurd h4 (by decide)
      simp only [hgate, Bool.false_eq_true, if_false]
      have hnf : (if !(lowerStr p.fs == "exfat") then "vfat" else "exfat") =
          normFat (lowerStr p.fs) := by
        unfold normFat legacyFsKinds
        rw [hleg]
        cases h : lowerStr p.fs == "exfat" <;> simp [h]
      have hz' : ((if !(lowerStr p.fs == "exfat") then "vfat" else "exfat") == "zfs") = false := by
        cases h : lowerStr p.fs == "exfat" <;> simp [h]
      have hb' : ((if !(lowerStr p.fs == "exfat") then "vfat" else "exfat") == "btrfs"
          && p.mountPoint == "/") = false := by
        cases h : lowerStr p.fs == "exfat" <;> simp [h]
      have := (tail_optsList env root p parts mo efi
        (if !(lowerStr p.fs == "exfat") then "vfat" else "exfat")
        p.mountPoint (root ++ p.mountPoint)
        { st with ledger := st.ledger ++ [root ++ p.mountPoint] }).2.1 hz' hb'
      rw [this, hnf]
  · intro hmp hfs hroot
    have hunf : (lowerStr p.fs == "unformatted") = false := by rw [hfs]; decide
    have hleg : ((["fat16", "fat32", "exfat", "ntfs", "ext2"] : List String).contains
        (lowerStr p.fs)) = false := by rw [hfs]; decide
    have hz : (lowerStr p.fs == "zfs") = false := by rw [hfs]; decide
    have hb : (lowerStr p.fs == "btrfs" && p.mountPoint == "/") = true := by
      rw [hfs, hroot]; decide
    unfold mount_partition
    simp only [hmp, Bool.false_eq_true, if_false, hunf, hleg]
    obtain ⟨rest, Δl, hr, hl, hsucc⟩ := tail_btrfs_succ env root p parts mo efi
      (lowerStr p.fs) p.mountPoint (root ++ p.mountPoint)
      { st with ledger := st.ledger ++ [root ++ p.mountPoint] } hz hb
    refine ⟨rest, Δl, ?_, hl, hsucc⟩
    rw [hr, hfs, hroot]

/-- Witness for C5 (amended): the failing direct mount of `pext` under
`cenv5` still appends the entry for `/data` to the options list; and for
the Btrfs root partition `pbtr` under the all-success oracle `cenvC`, the
root entry leads and every later entry's target appears among the
successful mount calls of the recorded log suffix. -/
theorem C5_amended_witness :
    (pext.mountPoint == "") = false
    ∧ (lowerStr pext.fs == "unformatted") = false
    ∧ fatGate (lowerStr pext.fs) pext.mountPoint none = true
    ∧ (mount_partition cenv5 "/rt" pext [pext] none none w0).1.optsList = w0.optsList ++
        [⟨pext.mountPoint, get_mount_options cenv5 (normFat (lowerStr pext.fs)) none pext none⟩]
    ∧ (∃ rest Δl, (mount_partition cenvC "/rt" pbtr [pbtr] none none w0).1.optsList =
          w0.optsList ++ [⟨"/", get_mount_options cenvC "btrfs" none pbtr none⟩] ++ rest
        ∧ (mount_partition cenvC "/rt" pbtr [pbtr] none none w0).1.log = w0.log ++ Δl
        ∧ ∀ e ∈ rest, "/rt" ++ e.mountpoint ∈ succMountTargets Δl) :=
  ⟨by decide, by decide, by decide,
   (C5_amended cenv5 "/rt" pext [pext] none none w0).2.1 (by decide) (by decide)
     (by decide) (by decide) (by decide),
   (C5_amended cenvC "/rt" pbtr [pbtr] none none w0).2.2 (by decide) rfl rfl⟩
